import Mathlib

/-!
Verification development for the ChronoCore game engine
(ai-engine/src/services: karma_calculator.py, timeline_analyzer.py,
realm_manager.py).

The Python services are shallowly embedded: dictionaries become
structures, string identifiers become natural-number tokens, Python
floats become exact rationals (reals where `math.sqrt` / `math.log10`
appear), and the global random number generator becomes an explicit
stream of rational draws, each normalised to [0,1) by taking its
fractional part.  Presentation-only string fields (descriptions,
event names) are omitted or represented by indices; they are never
read back by the game logic.
-/

/-! ## Shared numeric helpers -/

/-- Python round-half-to-even (the builtin `round` with one argument),
over exact rationals. -/
def pythonRound (q : ℚ) : ℤ :=
  let f := ⌊q⌋
  let r := q - f
  if r < 1/2 then f
  else if 1/2 < r then f + 1
  else if Even f then f else f + 1

/-- Python `int(x)` on a rational: truncation toward zero. -/
def pyIntQ (q : ℚ) : ℤ :=
  if 0 ≤ q then ⌊q⌋ else -⌊-q⌋

/-- Python `int(x)` on a real: truncation toward zero. -/
noncomputable def pyIntR (x : ℝ) : ℤ :=
  if 0 ≤ x then ⌊x⌋ else -⌊-x⌋

/-- Python `l[-n:]`: the last `n` elements of a list (the whole list
when it is shorter than `n`). -/
def lastN {α : Type} (n : ℕ) (l : List α) : List α :=
  l.drop (l.length - n)

/-- Fractional part of a rational; used to normalise an arbitrary
random seed value into the interval [0,1) that `random.random()`
guarantees. -/
def fract (q : ℚ) : ℚ := q - ⌊q⌋

/-- One draw of `random.random()` from an explicit stream of seeds:
returns a value in [0,1) and the rest of the stream (0 when the
stream is exhausted). -/
def randFloat : List ℚ → ℚ × List ℚ
  | [] => (0, [])
  | u :: rest => (fract u, rest)

/-- `random.randint(a, b)` (both bounds inclusive), driven by the
draw stream. -/
def randIntIncl (a b : ℤ) (rng : List ℚ) : ℤ × List ℚ :=
  let u := (randFloat rng).1
  (a + ⌊u * ((b - a + 1 : ℤ) : ℚ)⌋, (randFloat rng).2)

/-- `random.choice(l)`: a uniformly chosen element of `l`, driven by
the draw stream (`none` only for an empty list). -/
def chooseFrom {α : Type} (l : List α) (rng : List ℚ) : Option α × List ℚ :=
  let u := (randFloat rng).1
  (l.get? (⌊u * (l.length : ℚ)⌋.toNat), (randFloat rng).2)

/-- `random.uniform(a, b)`, driven by the draw stream. -/
def randUniform (a b : ℚ) (rng : List ℚ) : ℚ × List ℚ :=
  let u := (randFloat rng).1
  (a + u * (b - a), (randFloat rng).2)

/-! ## KarmaCalculator (karma_calculator.py)

Player roles, game eras and decision categories are finite string
enumerations in the Python source; they are embedded as inductive
types with an extra constructor standing for any unrecognised string.
Decision texts are kept as character lists because categorisation
performs lowercase substring search over them. -/

/-- Player roles: the four keys of `role_modifiers` plus any
unrecognised role string. -/
inductive Role | technoMonk | shadowBroker | chronoDiplomat | bioSmith | unknownRole
deriving DecidableEq, Repr

/-- The three per-role weights stored in `role_modifiers`. -/
structure RoleWeights where
  ethical : ℚ
  technological : ℚ
  temporal : ℚ
deriving DecidableEq, Repr

/-- `self.role_modifiers`: present for the four known roles only. -/
def role_modifiers : Role → Option RoleWeights
  | .technoMonk => some ⟨12/10, 8/10, 1⟩
  | .shadowBroker => some ⟨8/10, 1, 12/10⟩
  | .chronoDiplomat => some ⟨1, 8/10, 12/10⟩
  | .bioSmith => some ⟨11/10, 12/10, 7/10⟩
  | .unknownRole => none

/-- Game eras: the four keys of `era_modifiers` plus any unrecognised
era string. -/
inductive Era | initiation | progression | distortion | equilibrium | otherEra
deriving DecidableEq, Repr

/-- `self.era_modifiers.get(era, 1.0)`: the per-era modifier, with the
dictionary default folded in for unrecognised eras. -/
def era_modifiers : Era → ℚ
  | .initiation => 8/10
  | .progression => 1
  | .distortion => 12/10
  | .equilibrium => 15/10
  | .otherEra => 1

/-- Decision categories: the six keys of `action_categories` plus the
`"neutral"` fallback. -/
inductive Category
  | ethical_positive | ethical_negative
  | tech_positive | tech_negative
  | temporal_positive | temporal_negative
  | neutral
deriving DecidableEq, Repr

/-- Does `needle` occur at the head of `haystack`? -/
def leadMatch : List Char → List Char → Bool
  | [], _ => true
  | _ :: _, [] => false
  | a :: as, b :: bs => a = b && leadMatch as bs

/-- Python `needle in haystack` on strings: substring occurrence. -/
def subMatch (needle : List Char) : List Char → Bool
  | [] => leadMatch needle []
  | c :: cs => leadMatch needle (c :: cs) || subMatch needle cs

/-- `self.action_categories`, in dictionary insertion order. -/
def action_categories : List (Category × List (List Char)) :=
  [ (.ethical_positive,
      [['h','e','l','p'], ['s','a','v','e'], ['p','r','o','t','e','c','t'],
       ['h','e','a','l'], ['s','h','a','r','e']]),
    (.ethical_negative,
      [['h','a','r','m'], ['d','e','s','t','r','o','y'], ['b','e','t','r','a','y'],
       ['s','t','e','a','l'], ['l','i','e']]),
    (.tech_positive,
      [['r','e','s','e','a','r','c','h'], ['d','e','v','e','l','o','p'],
       ['i','n','n','o','v','a','t','e'], ['b','u','i','l','d'],
       ['u','p','g','r','a','d','e']]),
    (.tech_negative,
      [['s','a','b','o','t','a','g','e'], ['c','o','r','r','u','p','t'],
       ['w','e','a','p','o','n','i','z','e'], ['e','x','p','l','o','i','t']]),
    (.temporal_positive,
      [['s','t','a','b','i','l','i','z','e'], ['b','a','l','a','n','c','e'],
       ['h','a','r','m','o','n','i','z','e'], ['c','o','n','n','e','c','t']]),
    (.temporal_negative,
      [['d','i','s','r','u','p','t'], ['f','r','a','c','t','u','r','e'],
       ['c','o','l','l','a','p','s','e'], ['s','e','v','e','r']]) ]

/-- `KarmaCalculator._categorize_action`: first keyword-matched
category in dictionary order, then the karma-magnitude fallback. -/
def categorize_action (decision : List Char) (karma_impact : ℚ) : Category :=
  let dl := decision.map Char.toLower
  match action_categories.find? (fun ck => ck.2.any (fun kw => subMatch kw dl)) with
  | some ck => ck.1
  | none =>
    if karma_impact > 3 then .ethical_positive
    else if karma_impact < -3 then .ethical_negative
    else if 0 < karma_impact ∧ karma_impact ≤ 3 then .tech_positive
    else if -3 ≤ karma_impact ∧ karma_impact < 0 then .tech_negative
    else .neutral

/-- One entry of a player's action history. -/
structure HistEntry where
  decision : List Char
  karma_impact : ℤ
  category : Category
deriving DecidableEq, Repr

/-- The evaluation dictionary passed to `calculate`, with the fields
the function reads.  A missing impact key and a falsy impact value
behave identically, so each impact is a single boolean. -/
structure Evaluation where
  karma_score : ℚ
  player_role : Option Role
  ethical_impact : Bool
  technological_impact : Bool
  temporal_impact : Bool
  game_era : Option Era
deriving DecidableEq, Repr

/-- The role-modifier selection inside `calculate`: the weight of the
first truthy impact dimension (ethical, then technological, then
temporal), 1.0 for an unknown role or when no impact is truthy. -/
def roleModifier (ev : Evaluation) : ℚ :=
  match ev.player_role with
  | none => 1
  | some role =>
    match role_modifiers role with
    | none => 1
    | some w =>
      if ev.ethical_impact then w.ethical
      else if ev.technological_impact then w.technological
      else if ev.temporal_impact then w.temporal
      else 1

/-- Number of consecutive most-recent history entries (among the last
5) whose category matches `cur`. -/
def countConsecutive (history : List HistEntry) (cur : Category) : ℕ :=
  ((lastN 5 history).reverse.takeWhile (fun e => e.category = cur)).length

/-- `KarmaCalculator._calculate_consecutive_modifier`. -/
def calculate_consecutive_modifier (history : List HistEntry)
    (decision : List Char) (base_karma : ℚ) : ℚ :=
  if history = [] then 1
  else
    let cur := categorize_action decision base_karma
    let consecutive_count := countConsecutive history cur
    if consecutive_count > 0 then 1 / (1 + (consecutive_count : ℚ) * (2/10))
    else 1

/-- `KarmaCalculator._update_action_history`: append the new entry and
keep only the last 20. -/
def update_action_history (history : List HistEntry)
    (decision : List Char) (karma_impact : ℤ) : List HistEntry :=
  let h := history ++ [⟨decision, karma_impact, categorize_action decision (karma_impact : ℚ)⟩]
  if h.length > 20 then lastN 20 h else h

/-- The calculator's mutable per-player history cache
(`self.player_action_history`), as a total map with default `[]`. -/
structure KarmaState where
  player_action_history : ℕ → List HistEntry

/-- The fresh calculator state. -/
def initKarmaState : KarmaState := ⟨fun _ => []⟩

/-- `KarmaCalculator.calculate`: returns the karma delta and the
updated history cache. -/
def calculate (st : KarmaState) (player_id : ℕ)
    (decision : List Char) (evaluation : Evaluation) : ℤ × KarmaState :=
  let base_karma := evaluation.karma_score
  let role_modifier := roleModifier evaluation
  let era_modifier := era_modifiers (evaluation.game_era.getD .progression)
  let history := st.player_action_history player_id
  let consecutive_modifier := calculate_consecutive_modifier history decision base_karma
  let karma_impact := base_karma * role_modifier * era_modifier * consecutive_modifier
  let rounded := pythonRound karma_impact
  let clamped := max (-10) (min 10 rounded)
  (clamped,
   ⟨fun p => if p = player_id then update_action_history history decision clamped
             else st.player_action_history p⟩)

/-- One element of the `actions` list passed to `calculate_total`. -/
structure ActionRec where
  decision : List Char
  evaluation : Evaluation

/-- `KarmaCalculator.calculate_total`: sum of the per-action deltas,
threading the history cache through the calls. -/
def calculate_total (st : KarmaState) (player_id : ℕ)
    (actions : List ActionRec) : ℤ × KarmaState :=
  actions.foldl
    (fun acc a =>
      let r := calculate acc.2 player_id a.decision a.evaluation
      (acc.1 + r.1, r.2))
    (0, st)

/-- The list of per-action deltas produced along a `calculate_total`
run (the spec's "per-action deltas", each independently computed and
clamped). -/
def deltaList (st : KarmaState) (player_id : ℕ) : List ActionRec → List ℤ
  | [] => []
  | a :: as =>
    let r := calculate st player_id a.decision a.evaluation
    r.1 :: deltaList r.2 player_id as

/-- The history cache after `n` repetitions of the same decision and
evaluation by one player, starting from a fresh calculator. -/
def stateAfter (player_id : ℕ) (decision : List Char) (ev : Evaluation) : ℕ → KarmaState
  | 0 => initKarmaState
  | n + 1 => (calculate (stateAfter player_id decision ev n) player_id decision ev).2

/-- The delta returned by the (n+1)-st of a sequence of identical
`calculate` calls, starting from a fresh calculator. -/
def nthDelta (player_id : ℕ) (decision : List Char) (ev : Evaluation) (n : ℕ) : ℤ :=
  (calculate (stateAfter player_id decision ev n) player_id decision ev).1

/-! ## Game data model (models/realm.py, timeline.py, game_state.py)

Only the fields read by the three services are embedded.  String
identifiers are represented by natural-number tokens (the services
only ever compare them for equality). -/

/-- Technology focus: the seven keys of `TECH_FOCUS_IMPACTS` plus any
unrecognised focus string. -/
inductive Focus
  | balanced | military | scientific | cultural | economic | spiritual | ecological
  | otherFocus
deriving DecidableEq, Repr

/-- A realm record, with the numeric fields the services read.
`resources` and `population` are rationals because Python mixes float
deltas into them; `development_level` stays integral (it is only ever
assigned integer levels). -/
structure Realm where
  realm_id : ℕ
  timeline_id : ℕ
  owner_id : Option ℕ
  development_level : ℤ
  resources : ℚ
  population : ℚ
  ethical_alignment : ℚ
  technology_focus : Focus
deriving DecidableEq, Repr

/-- An entry of `game_state.events_history` (the fields the services
read: `affected_realms` and `karma_impact`). -/
structure GEvent where
  affected_realms : List ℕ
  karma_impact : ℚ
deriving DecidableEq, Repr

/-- An entry of `timeline.events` as read by
`_compare_timeline_events`: its `"type"` and optional `"outcome"`. -/
structure TimelineEvent where
  etype : ℕ
  outcome : Option ℕ
deriving DecidableEq, Repr

/-- A timeline record (fields read by the analyzer). -/
structure Timeline where
  timeline_id : ℕ
  stability : ℚ
  realms : List ℕ
  events : List TimelineEvent
deriving DecidableEq, Repr

/-- An entry of `game_state.time_rifts` (fields read by the
analyzer); `location` is flattened into its two id components. -/
structure TimeRift where
  timeline_id : ℕ
  realm_id : ℕ
  severity : ℚ
  resolved : Bool
deriving DecidableEq, Repr

/-- A player record (fields read by the realm manager). -/
structure Player where
  player_id : ℕ
  karma : ℚ
deriving DecidableEq, Repr

/-- The aggregate game state. -/
structure GameState where
  players : List Player
  timelines : List Timeline
  realms : List Realm
  current_turn : ℤ
  events_history : List GEvent
  time_rifts : List TimeRift
deriving DecidableEq, Repr

/-! ## TimelineAnalyzer (timeline_analyzer.py) -/

/-- `TimelineAnalyzer._calculate_ethical_alignment`: average realm
alignment, 0.0 for no realms. -/
def calculate_ethical_alignment (realms : List Realm) : ℚ :=
  if realms = [] then 0
  else
    let alignments := realms.map (fun r => r.ethical_alignment)
    alignments.sum / (alignments.length : ℚ)

/-- `TimelineAnalyzer._calculate_tech_disparity`: twice the population
standard deviation of the development levels, capped at 10; 0.0 for an
empty or single-realm list.  Real-valued because of `math.sqrt`. -/
noncomputable def calculate_tech_disparity (realms : List Realm) : ℝ :=
  if realms = [] ∨ realms.length = 1 then 0
  else
    let tech_levels := realms.map (fun r => (r.development_level : ℚ))
    let avg_tech := tech_levels.sum / (tech_levels.length : ℚ)
    let variance := (tech_levels.map (fun l => (l - avg_tech) ^ 2)).sum / (tech_levels.length : ℚ)
    min 10 (Real.sqrt (variance : ℝ) * 2)

/-- Paradox types. -/
inductive PType | tech_inversion | ethical_contradiction | cross_timeline_contamination
deriving DecidableEq, Repr

/-- A detected paradox: its type, severity, and the affected
realm ids (timeline ids for a contamination paradox).  The
presentation-only `description` string is omitted. -/
structure Paradox where
  ptype : PType
  severity : ℚ
  affected : List ℕ
deriving DecidableEq, Repr

/-- All ordered pairs `(l[i], l[j])` with `i < j`, in the order the
Python nested loops `for i, x in enumerate(l): for y in l[i+1:]`
visit them. -/
def pairsAfter {α : Type} : List α → List (α × α)
  | [] => []
  | x :: xs => (xs.map (fun y => (x, y))) ++ pairsAfter xs

/-- The tech-inversion pass of `detect_paradoxes`: any pair of realms
whose development levels differ by more than 3. -/
def techInversions (realms : List Realm) : List Paradox :=
  (pairsAfter (realms.map (fun r => (r.realm_id, r.development_level)))).filterMap
    (fun p =>
      if |p.1.2 - p.2.2| > 3 then
        some ⟨.tech_inversion, (|p.1.2 - p.2.2| : ℚ) / 2, [p.1.1, p.2.1]⟩
      else none)

/-- The ethical-contradiction pass of `detect_paradoxes`: any pair of
realms with opposite-signed alignments differing by more than 150. -/
def ethicalContradictions (realms : List Realm) : List Paradox :=
  (pairsAfter (realms.map (fun r => (r.realm_id, r.ethical_alignment)))).filterMap
    (fun p =>
      if p.1.2 * p.2.2 < 0 ∧ |p.1.2 - p.2.2| > 150 then
        some ⟨.ethical_contradiction, |p.1.2 - p.2.2| / 30, [p.1.1, p.2.1]⟩
      else none)

/-- The set of timelines the realms of an event belong to, as an
insertion-ordered duplicate-free list (the embedding of the Python
`set` built by looking each affected realm up in `game_state.realms`,
first match only). -/
def eventTimelines (gs : GameState) (affected : List ℕ) : List ℕ :=
  affected.foldl
    (fun acc rid =>
      match gs.realms.find? (fun r => r.realm_id == rid) with
      | some r => if r.timeline_id ∈ acc then acc else acc ++ [r.timeline_id]
      | none => acc)
    []

/-- The cross-timeline contamination pass of `detect_paradoxes`: any
of the last 15 game events whose affected realms span more than one
timeline, this timeline included. -/
def contaminations (tl : Timeline) (gs : GameState) : List Paradox :=
  (lastN 15 gs.events_history).filterMap
    (fun e =>
      let event_timelines := eventTimelines gs e.affected_realms
      if event_timelines.length > 1 ∧ tl.timeline_id ∈ event_timelines then
        some ⟨.cross_timeline_contamination, (event_timelines.length : ℚ) * (15/10), event_timelines⟩
      else none)

/-- `TimelineAnalyzer.detect_paradoxes`: the three passes appended in
source order. -/
def detect_paradoxes (tl : Timeline) (realms : List Realm) (gs : GameState) : List Paradox :=
  techInversions realms ++ ethicalContradictions realms ++ contaminations tl gs

/-- The recent-decision karma term of `calculate_stability`: events in
the last 10 whose affected realms intersect `timeline.realms`, each
contributing `karma_impact * 0.5`, accumulated in visit order. -/
def decisionImpactRaw (tl : Timeline) (gs : GameState) : ℚ :=
  (lastN 10 gs.events_history).foldl
    (fun acc e =>
      if e.affected_realms.any (fun rid => tl.realms.contains rid) then
        acc + e.karma_impact * (5/10)
      else acc)
    0

/-- The active-rift term of `calculate_stability`: `-5 * severity`
accumulated over unresolved rifts located in this timeline. -/
def riftImpact (tl : Timeline) (gs : GameState) : ℚ :=
  gs.time_rifts.foldl
    (fun acc r =>
      if ¬ r.resolved then
        if r.timeline_id = tl.timeline_id then acc - r.severity * 5 else acc
      else acc)
    0

/-- `TimelineAnalyzer.calculate_stability`: the timeline's stored
stability plus the five weighted terms, clamped to [0,100].  The
weights are the `STABILITY_FACTORS` entries. -/
noncomputable def calculate_stability (tl : Timeline) (realms : List Realm)
    (gs : GameState) : ℝ :=
  let decision_impact := max (-20) (min 20 (decisionImpactRaw tl gs))
  let alignment_impact := calculate_ethical_alignment realms / 10
  let tech_impact : ℝ := -(calculate_tech_disparity realms)
  let rift_impact := riftImpact tl gs
  let paradox_impact : ℚ := -((detect_paradoxes tl realms gs).length : ℚ) * 10
  let stability : ℝ := (tl.stability : ℝ) +
    ((decision_impact : ℝ) * 0.4 + (alignment_impact : ℝ) * 0.3 +
      tech_impact * 0.2 + (rift_impact : ℝ) * 0.5 + (paradox_impact : ℝ) * 0.7)
  max 0 (min 100 stability)

/-- `TimelineAnalyzer._compare_tech_levels`: similarity of average
development levels, in [0,1]. -/
def compare_tech_levels (realms1 realms2 : List Realm) : ℚ :=
  if realms1 = [] ∨ realms2 = [] then 0
  else
    let avg_tech1 := (realms1.map (fun r => (r.development_level : ℚ))).sum / (realms1.length : ℚ)
    let avg_tech2 := (realms2.map (fun r => (r.development_level : ℚ))).sum / (realms2.length : ℚ)
    max 0 (1 - |avg_tech1 - avg_tech2| / 10)

/-- `TimelineAnalyzer._compare_ethical_alignments`: similarity of
average alignments, in [0,1]. -/
def compare_ethical_alignments (realms1 realms2 : List Realm) : ℚ :=
  if realms1 = [] ∨ realms2 = [] then 0
  else
    let avg_align1 := (realms1.map (fun r => r.ethical_alignment)).sum / (realms1.length : ℚ)
    let avg_align2 := (realms2.map (fun r => r.ethical_alignment)).sum / (realms2.length : ℚ)
    max 0 (1 - |avg_align1 - avg_align2| / 200)

/-- `TimelineAnalyzer._compare_timeline_events`: event overlap credit
of two timelines (0.5 per shared type, plus 0.5 when the outcome also
matches), divided by the larger event count; 0.5 when either side has
no events. -/
def compare_timeline_events (t1 t2 : Timeline) : ℚ :=
  let events1 := t1.events
  let events2 := t2.events
  if events1 = [] ∨ events2 = [] then 5/10
  else
    let total_events := max events1.length events2.length
    let common_events : ℚ :=
      (events1.map (fun e1 =>
        (events2.map (fun e2 =>
          if e1.etype = e2.etype then
            5/10 + (if e1.outcome = e2.outcome then 5/10 else 0)
          else (0 : ℚ))).sum)).sum
    if total_events > 0 then common_events / (total_events : ℚ) else 5/10

/-- `TimelineAnalyzer.calculate_timeline_similarity`: the 0.3/0.4/0.3
blend of the three component similarities, scaled by 100; 0.0 when
either timeline has no member realms. -/
def calculate_timeline_similarity (t1 t2 : Timeline) (gs : GameState) : ℚ :=
  let realms1 := gs.realms.filter (fun r => r.timeline_id == t1.timeline_id)
  let realms2 := gs.realms.filter (fun r => r.timeline_id == t2.timeline_id)
  if realms1 = [] ∨ realms2 = [] then 0
  else
    let tech_similarity := compare_tech_levels realms1 realms2
    let ethical_similarity := compare_ethical_alignments realms1 realms2
    let event_similarity := compare_timeline_events t1 t2
    (tech_similarity * (3/10) + ethical_similarity * (4/10) + event_similarity * (3/10)) * 100

/-! ## TimelineAnalyzer.generate_time_rift -/

/-- One entry of the `rift_candidates` list built by
`generate_time_rift`. -/
structure RiftCandidate where
  timeline : Timeline
  realms : List Realm
  stability : ℝ
  chance : ℝ

/-- The candidate list of `generate_time_rift`: every timeline whose
computed stability is below the rift threshold 30, with its member
realm records, stability and rift chance `(30 - stability) / 30`. -/
noncomputable def riftCandidates (gs : GameState) : List RiftCandidate :=
  gs.timelines.filterMap
    (fun tl =>
      let realms := gs.realms.filter (fun r => r.timeline_id == tl.timeline_id)
      let stability := calculate_stability tl realms gs
      if stability < 30 then
        some ⟨tl, realms, stability, (30 - stability) / 30⟩
      else none)

/-- Stable insertion of a candidate into a chance-descending list: the
new element goes before the first strictly smaller chance and after
any equal one, so that the sort below models Python's stable
`list.sort(key=..., reverse=True)`. -/
noncomputable def insertDesc (c : RiftCandidate) : List RiftCandidate → List RiftCandidate
  | [] => [c]
  | d :: ds => if d.chance ≤ c.chance then c :: d :: ds else d :: insertDesc c ds

/-- Stable sort of the candidate list by chance, highest first. -/
noncomputable def sortCandidatesDesc : List RiftCandidate → List RiftCandidate
  | [] => []
  | c :: cs => insertDesc c (sortCandidatesDesc cs)

/-- The selection loop of `generate_time_rift`: one Bernoulli trial
per candidate in order, first success wins. -/
noncomputable def selectCandidate : List RiftCandidate → List ℚ → Option RiftCandidate × List ℚ
  | [], rng => (none, rng)
  | c :: cs, rng =>
    let u := (randFloat rng).1
    if (u : ℝ) < c.chance then (some c, (randFloat rng).2)
    else selectCandidate cs (randFloat rng).2

/-- The time-rift record built by `generate_time_rift`; `location` is
flattened, and the severity-indexed description string is represented
by its index into the `descriptions` table. -/
structure GeneratedRift where
  timeline_id : ℕ
  realm_id : ℕ
  x : ℤ
  y : ℤ
  severity : ℤ
  description_idx : ℕ
  created_at_turn : ℤ
  resolved : Bool
deriving DecidableEq, Repr

/-- `TimelineAnalyzer.generate_time_rift`: candidates below the
stability threshold, sorted by chance descending, sequential Bernoulli
trials, rift location and coordinates drawn for the first success. -/
noncomputable def generate_time_rift (gs : GameState) (rng : List ℚ) :
    Option GeneratedRift × List ℚ :=
  let rift_candidates := sortCandidatesDesc (riftCandidates gs)
  let sel := (selectCandidate rift_candidates rng).1
  let rng1 := (selectCandidate rift_candidates rng).2
  match sel with
  | none => (none, rng1)
  | some selected =>
    if selected.realms = [] then (none, rng1)
    else
      match (chooseFrom selected.realms rng1).1 with
      | none => (none, (chooseFrom selected.realms rng1).2)
      | some realm =>
        let rng2 := (chooseFrom selected.realms rng1).2
        let severity := min 5 (max 1 (pyIntR ((30 - selected.stability) / 5) + 1))
        let x := (randIntIncl 0 100 rng2).1
        let rng3 := (randIntIncl 0 100 rng2).2
        let y := (randIntIncl 0 100 rng3).1
        let rng4 := (randIntIncl 0 100 rng3).2
        (some ⟨selected.timeline.timeline_id, realm.realm_id, x, y, severity,
               (severity - 1).toNat, gs.current_turn, false⟩, rng4)

/-! ## RealmManager (realm_manager.py) -/

/-- The three per-focus multipliers stored in `TECH_FOCUS_IMPACTS`. -/
structure FocusImpacts where
  resources : ℚ
  population : ℚ
  ethical : ℚ
deriving DecidableEq, Repr

/-- `self.TECH_FOCUS_IMPACTS`: present for the seven known focuses
only; call sites apply their own dictionary defaults. -/
def TECH_FOCUS_IMPACTS : Focus → Option FocusImpacts
  | .balanced => some ⟨1, 1, 0⟩
  | .military => some ⟨12/10, 8/10, -(5/10)⟩
  | .scientific => some ⟨9/10, 1, 2/10⟩
  | .cultural => some ⟨8/10, 12/10, 5/10⟩
  | .economic => some ⟨15/10, 9/10, -(2/10)⟩
  | .spiritual => some ⟨7/10, 11/10, 7/10⟩
  | .ecological => some ⟨9/10, 1, 6/10⟩
  | .otherFocus => none

/-- `self.TECH_LEVEL_THRESHOLDS`: development points needed for each
technology level (index i is the threshold of level i+1). -/
def TECH_LEVEL_THRESHOLDS : List ℤ :=
  [0, 100, 250, 500, 1000, 2000, 4000, 8000, 16000, 32000]

/-- Python list indexing, including the negative-index wraparound;
out-of-range indices (which raise in Python) default to 0. -/
def pyIndex (l : List ℤ) (i : ℤ) : ℤ :=
  let j := if i < 0 then i + (l.length : ℤ) else i
  (l.get? j.toNat).getD 0

/-- The level-scan loop shared by `update_realm` and the discovery
branch of `process_realm_event`: `new_level = 1`, then walk the
threshold table from the front, setting `new_level = index + 1` while
the points reach the threshold, stopping at the first miss. -/
def newLevelAux (pts : ℚ) : List ℤ → ℤ → ℤ → ℤ
  | [], _, acc => acc
  | t :: ts, idx, acc =>
    if (t : ℚ) ≤ pts then newLevelAux pts ts (idx + 1) (idx + 1) else acc

/-- The technology level corresponding to accumulated development
points. -/
def newLevel (pts : ℚ) : ℤ :=
  newLevelAux pts TECH_LEVEL_THRESHOLDS 0 1

/-- `RealmManager._calculate_resource_change` (real-valued because of
`math.log10`). -/
noncomputable def calculate_resource_change (realm : Realm) (rng : List ℚ) :
    ℤ × List ℚ :=
  let base_growth : ℝ := 5
  let population_factor : ℝ := Real.logb 10 (max 1000 (realm.population : ℝ)) - 2
  let tech_factor : ℝ := (realm.development_level : ℝ) * 0.5
  let focus_impact : ℝ :=
    ((((TECH_FOCUS_IMPACTS realm.technology_focus).map FocusImpacts.resources).getD 1 : ℚ) : ℝ)
  let growth := base_growth + population_factor * tech_factor * focus_impact
  let u := (randFloat rng).1
  let variation : ℝ := 0.8 + (u : ℝ) * (1.2 - 0.8)
  (pyIntR (growth * variation), (randFloat rng).2)

/-- `RealmManager._calculate_population_change`. -/
def calculate_population_change (realm : Realm) (rng : List ℚ) : ℤ × List ℚ :=
  let growth_rate : ℚ := 5/100
  let resource_factor := min 2 (realm.resources / 50)
  let growth_rate := growth_rate + resource_factor * (2/100)
  let tech_factor := (realm.development_level : ℚ) * (3/100)
  let growth_rate := growth_rate + tech_factor
  let focus_impact :=
    ((TECH_FOCUS_IMPACTS realm.technology_focus).map FocusImpacts.population).getD 1
  let growth_rate := growth_rate * focus_impact
  let change := pyIntQ (realm.population * growth_rate)
  let u := (randFloat rng).1
  let variation : ℚ := 9/10 + u * (11/10 - 9/10)
  (pyIntQ ((change : ℚ) * variation), (randFloat rng).2)

/-- `RealmManager._calculate_development_progress` (real-valued
because of `math.log10` and `math.sqrt`). -/
noncomputable def calculate_development_progress (realm : Realm) (rng : List ℚ) :
    ℤ × List ℚ :=
  let base_rate : ℝ := 5
  let population_factor : ℝ := Real.logb 10 (max 1000 (realm.population : ℝ)) - 2
  let resource_factor : ℝ := Real.sqrt (max 1 (realm.resources : ℝ)) * 0.5
  let tech_level_factor : ℝ := 1 / Real.sqrt ((realm.development_level : ℝ))
  let progress := base_rate + population_factor * resource_factor * tech_level_factor
  let u := (randFloat rng).1
  let variation : ℝ := 0.85 + (u : ℝ) * (1.15 - 0.85)
  (pyIntR (progress * variation), (randFloat rng).2)

/-- `RealmManager._calculate_ethical_shift`: drift toward neutral,
owner karma influence, focus bias and recent-event karma, with the
total clamped to [-5,5]. -/
def calculate_ethical_shift (realm : Realm) (gs : GameState) : ℚ :=
  let base_shift : ℚ :=
    if realm.ethical_alignment > 0 then -(5/10)
    else if realm.ethical_alignment < 0 then 5/10
    else 0
  let owner_influence : ℚ :=
    match realm.owner_id with
    | none => 0
    | some oid =>
      match gs.players.find? (fun p => p.player_id == oid) with
      | none => 0
      | some player =>
        let karma_direction : ℚ :=
          if player.karma > 0 then 1 else if player.karma < 0 then -1 else 0
        karma_direction * min 2 (|player.karma| * (1/10))
  let focus_impact :=
    ((TECH_FOCUS_IMPACTS realm.technology_focus).map FocusImpacts.ethical).getD 0
  let events_impact :=
    (lastN 5 gs.events_history).foldl
      (fun acc e =>
        if realm.realm_id ∈ e.affected_realms then acc + e.karma_impact * (2/10) else acc)
      0
  let shift := base_shift + owner_influence + focus_impact + events_impact
  max (-5) (min 5 shift)

/-- `RealmManager.update_realm`: one turn of resource, population,
development and ethical-alignment progression.  The level-up
description regeneration is presentation-only and omitted. -/
noncomputable def update_realm (realm : Realm) (gs : GameState) (rng : List ℚ) :
    Realm × List ℚ :=
  let resources_change := (calculate_resource_change realm rng).1
  let rng1 := (calculate_resource_change realm rng).2
  let population_change := (calculate_population_change realm rng1).1
  let rng2 := (calculate_population_change realm rng1).2
  let development_progress := (calculate_development_progress realm rng2).1
  let rng3 := (calculate_development_progress realm rng2).2
  let realm1 := { realm with
    resources := realm.resources + (resources_change : ℚ),
    population := realm.population + (population_change : ℚ) }
  let current_dev_points :=
    realm.development_level * pyIndex TECH_LEVEL_THRESHOLDS (min 9 realm.development_level)
  let new_dev_points := current_dev_points + development_progress
  let new_level := newLevel (new_dev_points : ℚ)
  let realm2 :=
    if new_level > realm.development_level then
      { realm1 with development_level := new_level }
    else realm1
  let ethical_shift := calculate_ethical_shift realm2 gs
  let realm3 := { realm2 with
    ethical_alignment := max (-100) (min 100 (realm2.ethical_alignment + ethical_shift)) }
  (realm3, rng3)

/-- Event types handled by `process_realm_event`; any other string
falls through every branch. -/
inductive EventType
  | disaster | discovery | cultural_shift | resource_discovery | population_change
  | otherEvent
deriving DecidableEq, Repr

/-- The `event_data` dictionary: the numeric fields the branches read,
optional so each branch can apply its own `.get` default. -/
structure EventData where
  severity : Option ℚ
  importance : Option ℚ
  direction : Option ℚ
  magnitude : Option ℚ
  amount : Option ℚ
deriving DecidableEq, Repr

/-- The structured `outcome["effects"]` map returned by
`process_realm_event`; fields absent from a branch stay `none`. -/
structure EventOutcome where
  resources : Option ℚ := none
  population : Option ℚ := none
  development : Option ℚ := none
  ethical_alignment : Option ℚ := none
  tech_level : Option ℤ := none
deriving DecidableEq, Repr

/-- `RealmManager.process_realm_event`: the five discrete event-effect
branches (outcome description strings omitted). -/
def process_realm_event (realm : Realm) (event_type : EventType)
    (event_data : EventData) (rng : List ℚ) :
    Realm × EventOutcome × List ℚ :=
  match event_type with
  | .disaster =>
    let severity := event_data.severity.getD 1
    let d1 := (randIntIncl 5 20 rng).1
    let rng1 := (randIntIncl 5 20 rng).2
    let resource_impact : ℚ := -severity * (10 + (d1 : ℚ))
    let d2 := (randIntIncl 500 2000 rng1).1
    let rng2 := (randIntIncl 500 2000 rng1).2
    let population_impact : ℚ := -severity * (1000 + (d2 : ℚ))
    let mitigation := min (8/10) ((realm.development_level : ℚ) * (1/10))
    let resource_impact := pyIntQ (resource_impact * (1 - mitigation))
    let population_impact := pyIntQ (population_impact * (1 - mitigation))
    let realm' := { realm with
      resources := max 10 (realm.resources + (resource_impact : ℚ)),
      population := max 1000 (realm.population + (population_impact : ℚ)) }
    (realm',
     { resources := some (resource_impact : ℚ), population := some (population_impact : ℚ),
       development := some (-severity) }, rng2)
  | .discovery =>
    let importance := event_data.importance.getD 1
    let d1 := (randIntIncl 5 15 rng).1
    let rng1 := (randIntIncl 5 15 rng).2
    let resource_impact : ℚ := importance * (5 + (d1 : ℚ))
    let d2 := (randIntIncl 5 20 rng1).1
    let rng2 := (randIntIncl 5 20 rng1).2
    let development_impact : ℚ := importance * (10 + (d2 : ℚ))
    let realm1 := { realm with resources := realm.resources + resource_impact }
    let current_dev_points :=
      realm.development_level * pyIndex TECH_LEVEL_THRESHOLDS (min 9 realm.development_level)
    let new_dev_points := (current_dev_points : ℚ) + development_impact
    let new_level := newLevel new_dev_points
    let realm2 :=
      if new_level > realm.development_level then
        { realm1 with development_level := new_level }
      else realm1
    (realm2,
     { resources := some resource_impact, development := some development_impact,
       tech_level := some realm2.development_level }, rng2)
  | .cultural_shift =>
    let direction := event_data.direction.getD 0
    let magnitude := event_data.magnitude.getD 5
    let ethical_impact := direction * magnitude
    let realm' := { realm with
      ethical_alignment := max (-100) (min 100 (realm.ethical_alignment + ethical_impact)) }
    (realm', { ethical_alignment := some ethical_impact }, rng)
  | .resource_discovery =>
    let amount := event_data.amount.getD 20
    let realm' := { realm with resources := realm.resources + amount }
    (realm', { resources := some amount }, rng)
  | .population_change =>
    let amount := event_data.amount.getD 5000
    let realm' := { realm with population := max 1000 (realm.population + amount) }
    (realm', { population := some amount }, rng)
  | .otherEvent => (realm, {}, rng)

/-! ## Lemmas about the shared numeric helpers -/

lemma floor_le_pythonRound (q : ℚ) : ⌊q⌋ ≤ pythonRound q := by
  simp only [pythonRound]
  split_ifs <;> omega

lemma pythonRound_le_floor_add_one (q : ℚ) : pythonRound q ≤ ⌊q⌋ + 1 := by
  simp only [pythonRound]
  split_ifs <;> omega

lemma pythonRound_zero : pythonRound 0 = 0 := by
  have h0 : ⌊(0 : ℚ)⌋ = 0 := Int.floor_zero
  simp only [pythonRound, h0]
  norm_num

lemma pythonRound_mono {x y : ℚ} (h : x ≤ y) : pythonRound x ≤ pythonRound y := by
  rcases lt_or_le ⌊x⌋ ⌊y⌋ with hf | hf
  · calc pythonRound x ≤ ⌊x⌋ + 1 := pythonRound_le_floor_add_one x
    _ ≤ ⌊y⌋ := by omega
    _ ≤ pythonRound y := floor_le_pythonRound y
  · have hf' : ⌊x⌋ = ⌊y⌋ := le_antisymm (Int.floor_le_floor h) hf
    have hfx : (⌊x⌋ : ℚ) ≤ x := Int.floor_le x
    have hfy : (⌊y⌋ : ℚ) ≤ y := Int.floor_le y
    simp only [pythonRound]
    rw [← hf']
    have hd : x - (⌊x⌋ : ℚ) ≤ y - (⌊x⌋ : ℚ) := by linarith
    split_ifs <;> first
      | omega
      | (exfalso; linarith)

lemma pythonRound_nonneg {x : ℚ} (h : 0 ≤ x) : 0 ≤ pythonRound x := by
  have := pythonRound_mono h
  rwa [pythonRound_zero] at this

lemma pythonRound_nonpos {x : ℚ} (h : x ≤ 0) : pythonRound x ≤ 0 := by
  have := pythonRound_mono h
  rwa [pythonRound_zero] at this

lemma clamp10_mono {a b : ℤ} (h : a ≤ b) :
    max (-10) (min 10 a) ≤ max (-10) (min 10 b) :=
  max_le_max le_rfl (min_le_min le_rfl h)

lemma clamp10_nonneg {a : ℤ} (h : 0 ≤ a) : 0 ≤ max (-10) (min 10 a) :=
  le_max_of_le_right (le_min (by norm_num) h)

lemma clamp10_nonpos {a : ℤ} (h : a ≤ 0) : max (-10) (min 10 a) ≤ 0 :=
  max_le (by norm_num) (le_trans (min_le_right _ _) h)

lemma clamp10_lower (a : ℤ) : -10 ≤ max (-10) (min 10 a) := le_max_left _ _

lemma clamp10_upper (a : ℤ) : max (-10) (min 10 a) ≤ 10 :=
  max_le (by norm_num) (min_le_left _ _)

/-- Core monotonicity fact behind the diminishing-returns property:
shrinking the (positive) consecutive-action modifier never grows the
magnitude of the rounded, clamped karma delta. -/
lemma absClampRound_le {B x y : ℚ} (hx : 0 < x) (hxy : x ≤ y) :
    |max (-10) (min 10 (pythonRound (B * x)))| ≤
      |max (-10) (min 10 (pythonRound (B * y)))| := by
  rcases le_or_lt 0 B with hB | hB
  · have h1 : 0 ≤ B * x := mul_nonneg hB hx.le
    have h2 : B * x ≤ B * y := mul_le_mul_of_nonneg_left hxy hB
    have r1 : 0 ≤ pythonRound (B * x) := pythonRound_nonneg h1
    have r2 : pythonRound (B * x) ≤ pythonRound (B * y) := pythonRound_mono h2
    rw [abs_of_nonneg (clamp10_nonneg r1), abs_of_nonneg (clamp10_nonneg (le_trans r1 r2))]
    exact clamp10_mono r2
  · have h2 : B * y ≤ B * x := mul_le_mul_of_nonpos_left hxy hB.le
    have h1 : B * x ≤ 0 := mul_nonpos_of_nonpos_of_nonneg hB.le hx.le
    have r1 : pythonRound (B * x) ≤ 0 := pythonRound_nonpos h1
    have r2 : pythonRound (B * y) ≤ pythonRound (B * x) := pythonRound_mono h2
    rw [abs_of_nonpos (clamp10_nonpos r1), abs_of_nonpos (clamp10_nonpos (le_trans r2 r1))]
    exact neg_le_neg (clamp10_mono r2)

/-! ## Lemmas about `calculate` -/

lemma calculate_fst (st : KarmaState) (pid : ℕ) (dec : List Char) (ev : Evaluation) :
    (calculate st pid dec ev).1 =
      max (-10) (min 10 (pythonRound
        (ev.karma_score * roleModifier ev *
          era_modifiers (ev.game_era.getD .progression) *
          calculate_consecutive_modifier (st.player_action_history pid) dec ev.karma_score))) :=
  rfl

lemma calculate_snd (st : KarmaState) (pid : ℕ) (dec : List Char) (ev : Evaluation) :
    (calculate st pid dec ev).2.player_action_history pid =
      update_action_history (st.player_action_history pid) dec (calculate st pid dec ev).1 := by
  simp [calculate]

lemma calculate_snd_other (st : KarmaState) (pid : ℕ) (dec : List Char) (ev : Evaluation)
    {p : ℕ} (hp : p ≠ pid) :
    (calculate st pid dec ev).2.player_action_history p = st.player_action_history p := by
  simp [calculate, hp]

lemma calculate_lower (st : KarmaState) (pid : ℕ) (dec : List Char) (ev : Evaluation) :
    -10 ≤ (calculate st pid dec ev).1 := by
  rw [calculate_fst]; exact clamp10_lower _

lemma calculate_upper (st : KarmaState) (pid : ℕ) (dec : List Char) (ev : Evaluation) :
    (calculate st pid dec ev).1 ≤ 10 := by
  rw [calculate_fst]; exact clamp10_upper _

lemma calculate_abs_le (st : KarmaState) (pid : ℕ) (dec : List Char) (ev : Evaluation) :
    |(calculate st pid dec ev).1| ≤ 10 := by
  rw [abs_le]
  exact ⟨calculate_lower st pid dec ev, calculate_upper st pid dec ev⟩

/-- Claim C1: for every input evaluation (any karma score, role, era)
and any decision text, `KarmaCalculator.calculate` returns an integer
karma delta d with -10 ≤ d ≤ 10. -/
theorem claim_C1_calculate_delta_bounded
    (st : KarmaState) (player_id : ℕ) (decision : List Char) (evaluation : Evaluation) :
    -10 ≤ (calculate st player_id decision evaluation).1 ∧
      (calculate st player_id decision evaluation).1 ≤ 10 :=
  ⟨calculate_lower st player_id decision evaluation,
   calculate_upper st player_id decision evaluation⟩

/-! ## Claim C4: calculate_total -/

lemma calculate_total_go (pid : ℕ) :
    ∀ (actions : List ActionRec) (acc : ℤ) (st : KarmaState),
      (List.foldl
        (fun acc a =>
          let r := calculate acc.2 pid a.decision a.evaluation
          (acc.1 + r.1, r.2))
        ((acc, st) : ℤ × KarmaState) actions).1 = acc + (deltaList st pid actions).sum := by
  intro actions
  induction actions with
  | nil => intro acc st; simp [deltaList]
  | cons a as ih =>
    intro acc st
    simp only [List.foldl_cons, deltaList, List.sum_cons]
    rw [ih]
    ring

lemma calculate_total_eq_sum (st : KarmaState) (pid : ℕ) (actions : List ActionRec) :
    (calculate_total st pid actions).1 = (deltaList st pid actions).sum := by
  have h := calculate_total_go pid actions 0 st
  rw [zero_add] at h
  exact h

lemma deltaList_abs_sum_le (pid : ℕ) :
    ∀ (actions : List ActionRec) (st : KarmaState),
      |(deltaList st pid actions).sum| ≤ 10 * actions.length := by
  intro actions
  induction actions with
  | nil => intro st; simp [deltaList]
  | cons a as ih =>
    intro st
    simp only [deltaList, List.sum_cons, List.length_cons]
    have h1 := abs_add (calculate st pid a.decision a.evaluation).1
      (deltaList (calculate st pid a.decision a.evaluation).2 pid as).sum
    have h2 := calculate_abs_le st pid a.decision a.evaluation
    have h3 := ih (calculate st pid a.decision a.evaluation).2
    push_cast
    push_cast at h3
    linarith

lemma deltaList_mem_abs_le (pid : ℕ) :
    ∀ (actions : List ActionRec) (st : KarmaState) (d : ℤ),
      d ∈ deltaList st pid actions → |d| ≤ 10 := by
  intro actions
  induction actions with
  | nil => intro st d hd; simp [deltaList] at hd
  | cons a as ih =>
    intro st d hd
    simp only [deltaList, List.mem_cons] at hd
    rcases hd with hd | hd
    · rw [hd]; exact calculate_abs_le _ _ _ _
    · exact ih _ d hd

/-- The maximally scoring evaluation used to show the 10·n total is
attained: raw score 100, no role, default era. -/
def evMax : Evaluation := ⟨100, none, false, false, false, none⟩

lemma countConsecutive_le_five (history : List HistEntry) (cur : Category) :
    countConsecutive history cur ≤ 5 := by
  unfold countConsecutive
  calc ((lastN 5 history).reverse.takeWhile fun e => e.category = cur).length
      ≤ (lastN 5 history).reverse.length :=
        (List.takeWhile_sublist _).length_le
    _ ≤ 5 := by
        simp only [List.length_reverse, lastN, List.length_drop]
        omega

lemma consecutive_modifier_ge_half (history : List HistEntry)
    (dec : List Char) (b : ℚ) :
    1/2 ≤ calculate_consecutive_modifier history dec b := by
  simp only [calculate_consecutive_modifier]
  split_ifs with h1 h2
  · norm_num
  · have hc : countConsecutive history (categorize_action dec b) ≤ 5 :=
      countConsecutive_le_five _ _
    have hc' : ((countConsecutive history (categorize_action dec b) : ℚ)) ≤ 5 := by
      exact_mod_cast hc
    have hpos : (0:ℚ) < 1 + (countConsecutive history (categorize_action dec b) : ℚ) * (2/10) := by
      have : (0:ℚ) ≤ (countConsecutive history (categorize_action dec b) : ℚ) := by positivity
      nlinarith
    rw [div_le_div_iff (by norm_num) hpos]
    nlinarith
  · norm_num

lemma calculate_evMax (st : KarmaState) (pid : ℕ) :
    (calculate st pid [] evMax).1 = 10 := by
  rw [calculate_fst]
  have hks : evMax.karma_score = 100 := rfl
  have hrm : roleModifier evMax = 1 := rfl
  have he : era_modifiers (evMax.game_era.getD .progression) = 1 := rfl
  rw [hks, hrm, he]
  have hmod := consecutive_modifier_ge_half (st.player_action_history pid) [] (100 : ℚ)
  have harg : (50 : ℚ) ≤ 100 * 1 * 1 *
      calculate_consecutive_modifier (st.player_action_history pid) [] 100 := by
    nlinarith
  have hfl : (50 : ℤ) ≤ ⌊(100 : ℚ) * 1 * 1 *
      calculate_consecutive_modifier (st.player_action_history pid) [] 100⌋ := by
    rw [Int.le_floor]
    exact_mod_cast harg
  have hr : (50 : ℤ) ≤ pythonRound ((100 : ℚ) * 1 * 1 *
      calculate_consecutive_modifier (st.player_action_history pid) [] 100) :=
    le_trans hfl (floor_le_pythonRound _)
  have hmin : min 10 (pythonRound ((100 : ℚ) * 1 * 1 *
      calculate_consecutive_modifier (st.player_action_history pid) [] 100)) = 10 :=
    min_eq_left (by omega)
  rw [hmin]
  norm_num

lemma calculate_total_replicate (pid : ℕ) :
    ∀ (n : ℕ) (st : KarmaState),
      (deltaList st pid (List.replicate n ⟨[], evMax⟩)).sum = 10 * n := by
  intro n
  induction n with
  | zero => intro st; simp [deltaList]
  | succ m ih =>
    intro st
    simp only [List.replicate_succ, deltaList, List.sum_cons]
    rw [ih, calculate_evMax]
    push_cast
    ring

/-- Claim C4: `calculate_total` returns the arithmetic sum of the
per-action deltas, each independently computed and clamped to
[-10,10] before summation; the total itself is not clamped, so for n
actions it can reach magnitude 10·n but never more. -/
theorem claim_C4_total_is_sum_of_clamped :
    (∀ (st : KarmaState) (player_id : ℕ) (actions : List ActionRec),
      (calculate_total st player_id actions).1 = (deltaList st player_id actions).sum ∧
      (∀ d ∈ deltaList st player_id actions, |d| ≤ 10) ∧
      |(calculate_total st player_id actions).1| ≤ 10 * actions.length) ∧
    (∀ n : ℕ, ∃ (st : KarmaState) (player_id : ℕ) (actions : List ActionRec),
      actions.length = n ∧ (calculate_total st player_id actions).1 = 10 * n) := by
  constructor
  · intro st pid actions
    refine ⟨calculate_total_eq_sum st pid actions, ?_, ?_⟩
    · intro d hd
      exact deltaList_mem_abs_le pid actions st d hd
    · rw [calculate_total_eq_sum]
      exact deltaList_abs_sum_le pid actions st
  · intro n
    refine ⟨initKarmaState, 0, List.replicate n ⟨[], evMax⟩, List.length_replicate n _, ?_⟩
    rw [calculate_total_eq_sum, calculate_total_replicate]

/-! ## Claim C3: diminishing returns under repetition -/

lemma lastN_subset {α : Type} {n : ℕ} {l : List α} : ∀ x ∈ lastN n l, x ∈ l :=
  fun _ hx => List.drop_subset _ _ hx

lemma takeWhile_all_of_mem {p : HistEntry → Bool} {l : List HistEntry}
    (h : ∀ e ∈ l, p e = true) : l.takeWhile p = l := by
  induction l with
  | nil => rfl
  | cons a t ih =>
    rw [List.takeWhile_cons_of_pos (h a (List.mem_cons_self a t))]
    rw [ih (fun e he => h e (List.mem_cons_of_mem a he))]

lemma countConsecutive_all {h : List HistEntry} {c : Category}
    (hall : ∀ e ∈ h, e.category = c) : countConsecutive h c = min h.length 5 := by
  unfold countConsecutive
  have hm : ∀ e ∈ (lastN 5 h).reverse, (fun e : HistEntry => decide (e.category = c)) e = true := by
    intro e he
    rw [List.mem_reverse] at he
    simp only [decide_eq_true_eq]
    exact hall e (lastN_subset e he)
  rw [takeWhile_all_of_mem hm]
  simp only [List.length_reverse, lastN, List.length_drop]
  omega

lemma update_action_history_length (h : List HistEntry) (dec : List Char) (k : ℤ) :
    (update_action_history h dec k).length = min (h.length + 1) 20 := by
  simp only [update_action_history]
  split_ifs with hlen
  · simp only [lastN, List.length_drop, List.length_append, List.length_cons,
      List.length_nil] at *
    omega
  · simp only [List.length_append, List.length_cons, List.length_nil] at *
    omega

lemma update_action_history_mem {h : List HistEntry} {dec : List Char} {k : ℤ}
    {e : HistEntry} (he : e ∈ update_action_history h dec k) :
    e ∈ h ∨ e = ⟨dec, k, categorize_action dec (k : ℚ)⟩ := by
  simp only [update_action_history] at he
  split_ifs at he with hlen
  · have := lastN_subset e he
    rw [List.mem_append] at this
    rcases this with h1 | h1
    · exact Or.inl h1
    · exact Or.inr (List.mem_singleton.mp h1)
  · rw [List.mem_append] at he
    rcases he with h1 | h1
    · exact Or.inl h1
    · exact Or.inr (List.mem_singleton.mp h1)

lemma run_history (pid : ℕ) (dec : List Char) (ev : Evaluation) (N : ℕ)
    (H : ∀ k, k < N →
      categorize_action dec ((nthDelta pid dec ev k : ℤ) : ℚ) =
        categorize_action dec ev.karma_score) :
    ∀ n, n ≤ N →
      ((stateAfter pid dec ev n).player_action_history pid).length = min n 20 ∧
      ∀ e ∈ (stateAfter pid dec ev n).player_action_history pid,
        e.category = categorize_action dec ev.karma_score := by
  intro n
  induction n with
  | zero =>
    intro _
    constructor
    · rfl
    · intro e he
      simp [stateAfter, initKarmaState] at he
  | succ m ih =>
    intro hm
    have ihm := ih (le_of_lt (Nat.lt_of_succ_le hm))
    have hstep : (stateAfter pid dec ev (m+1)).player_action_history pid =
        update_action_history ((stateAfter pid dec ev m).player_action_history pid) dec
          (nthDelta pid dec ev m) := by
      show ((calculate (stateAfter pid dec ev m) pid dec ev).2).player_action_history pid = _
      rw [calculate_snd]
      rfl
    constructor
    · rw [hstep, update_action_history_length, ihm.1]
      omega
    · intro e he
      rw [hstep] at he
      rcases update_action_history_mem he with h1 | h1
      · exact ihm.2 e h1
      · rw [h1]
        exact H m (Nat.lt_of_succ_le hm)

/-- The consecutive-repetition modifier applied on the (n+1)-st call
of an identical-bucket run. -/
def karmaMu (n : ℕ) : ℚ := 1 / (1 + ((min n 5 : ℕ) : ℚ) * (2/10))

lemma karmaMu_pos (n : ℕ) : 0 < karmaMu n := by
  unfold karmaMu
  have : (0:ℚ) ≤ ((min n 5 : ℕ) : ℚ) := Nat.cast_nonneg _
  positivity

lemma karmaMu_antitone (n : ℕ) : karmaMu (n + 1) ≤ karmaMu n := by
  unfold karmaMu
  have hmin : ((min n 5 : ℕ) : ℚ) ≤ ((min (n+1) 5 : ℕ) : ℚ) := by
    have : min n 5 ≤ min (n+1) 5 := by omega
    exact_mod_cast this
  have h1 : (0:ℚ) < 1 + ((min n 5 : ℕ) : ℚ) * (2/10) := by
    have : (0:ℚ) ≤ ((min n 5 : ℕ) : ℚ) := Nat.cast_nonneg _
    nlinarith
  have h2 : (0:ℚ) < 1 + ((min (n+1) 5 : ℕ) : ℚ) * (2/10) := by
    have : (0:ℚ) ≤ ((min (n+1) 5 : ℕ) : ℚ) := Nat.cast_nonneg _
    nlinarith
  rw [div_le_div_iff h2 h1]
  nlinarith

lemma run_modifier_closed (pid : ℕ) (dec : List Char) (ev : Evaluation) (N : ℕ)
    (H : ∀ k, k < N →
      categorize_action dec ((nthDelta pid dec ev k : ℤ) : ℚ) =
        categorize_action dec ev.karma_score) :
    ∀ n, n ≤ N →
      calculate_consecutive_modifier
        ((stateAfter pid dec ev n).player_action_history pid) dec ev.karma_score =
        karmaMu n := by
  intro n hn
  have inv := run_history pid dec ev N H n hn
  match n with
  | 0 =>
    have hnil : (stateAfter pid dec ev 0).player_action_history pid = [] := rfl
    rw [hnil]
    simp only [calculate_consecutive_modifier, if_pos rfl]
    unfold karmaMu
    norm_num
  | m + 1 =>
    have hne : (stateAfter pid dec ev (m+1)).player_action_history pid ≠ [] := by
      intro hcon
      have := inv.1
      rw [hcon] at this
      simp at this
      omega
    simp only [calculate_consecutive_modifier, if_neg hne]
    rw [countConsecutive_all inv.2, inv.1]
    have hgt : min (min (m + 1) 20) 5 > 0 := by omega
    rw [if_pos hgt]
    unfold karmaMu
    have : min (min (m + 1) 20) 5 = min (m + 1) 5 := by omega
    rw [this]

lemma run_delta_closed (pid : ℕ) (dec : List Char) (ev : Evaluation) (N : ℕ)
    (H : ∀ k, k < N →
      categorize_action dec ((nthDelta pid dec ev k : ℤ) : ℚ) =
        categorize_action dec ev.karma_score) :
    ∀ n, n ≤ N →
      nthDelta pid dec ev n =
        max (-10) (min 10 (pythonRound
          (ev.karma_score * roleModifier ev *
            era_modifiers (ev.game_era.getD .progression) * karmaMu n))) := by
  intro n hn
  unfold nthDelta
  rw [calculate_fst, run_modifier_closed pid dec ev N H n hn]

/-- Claim C3: if the same decision bucket is produced on every call of
a run of identical `calculate` calls (all other inputs fixed), the
absolute value of the returned karma delta is non-increasing along the
run — the consecutive-repetition modifier, drawn from at most the last
5 history entries, never increases a delta's magnitude. -/
theorem claim_C3_repetition_diminishing (player_id : ℕ) (decision : List Char)
    (ev : Evaluation) (N : ℕ)
    (H : ∀ k, k < N →
      categorize_action decision ((nthDelta player_id decision ev k : ℤ) : ℚ) =
        categorize_action decision ev.karma_score) :
    ∀ n, n + 1 < N →
      |nthDelta player_id decision ev (n + 1)| ≤ |nthDelta player_id decision ev n| := by
  intro n hn
  rw [run_delta_closed player_id decision ev N H (n+1) (by omega),
    run_delta_closed player_id decision ev N H n (by omega)]
  exact absClampRound_le (karmaMu_pos (n+1)) (karmaMu_antitone n)

/-- The decision text used in the repetition witness: contains the
keyword "help", so every call is bucketed `ethical_positive`. -/
def decW : List Char := ['h','e','l','p',' ','t','h','e','m']

/-- The evaluation used in the repetition witness. -/
def evW : Evaluation := ⟨5, none, false, false, false, none⟩

theorem claim_C3_witness :
    (∀ k, k < 3 →
      categorize_action decW ((nthDelta 0 decW evW k : ℤ) : ℚ) =
        categorize_action decW evW.karma_score) ∧
    (∀ n, n + 1 < 3 →
      |nthDelta 0 decW evW (n + 1)| ≤ |nthDelta 0 decW evW n|) := by
  have hcat : ∀ q : ℚ, categorize_action decW q = Category.ethical_positive := by
    intro q
    rfl
  have H : ∀ k, k < 3 →
      categorize_action decW ((nthDelta 0 decW evW k : ℤ) : ℚ) =
        categorize_action decW evW.karma_score := by
    intro k _
    rw [hcat, hcat]
  exact ⟨H, claim_C3_repetition_diminishing 0 decW evW 3 H⟩

/-! ## Claim C5: the 2-vs-9 tech-inversion scenario -/

lemma techInversions_ptype {realms : List Realm} :
    ∀ p ∈ techInversions realms, p.ptype = PType.tech_inversion := by
  intro p hp
  unfold techInversions at hp
  rw [List.mem_filterMap] at hp
  obtain ⟨a, _, ha⟩ := hp
  split_ifs at ha
  cases ha
  rfl

lemma ethicalContradictions_ptype {realms : List Realm} :
    ∀ p ∈ ethicalContradictions realms, p.ptype = PType.ethical_contradiction := by
  intro p hp
  unfold ethicalContradictions at hp
  rw [List.mem_filterMap] at hp
  obtain ⟨a, _, ha⟩ := hp
  split_ifs at ha
  cases ha
  rfl

lemma contaminations_ptype {tl : Timeline} {gs : GameState} :
    ∀ p ∈ contaminations tl gs, p.ptype = PType.cross_timeline_contamination := by
  intro p hp
  unfold contaminations at hp
  rw [List.mem_filterMap] at hp
  obtain ⟨a, _, ha⟩ := hp
  dsimp only at ha
  split_ifs at ha
  cases ha
  rfl

lemma detect_paradoxes_filter_tech (tl : Timeline) (realms : List Realm) (gs : GameState) :
    (detect_paradoxes tl realms gs).filter (fun p => p.ptype == PType.tech_inversion) =
      techInversions realms := by
  unfold detect_paradoxes
  rw [List.filter_append, List.filter_append]
  have h1 : (techInversions realms).filter (fun p => p.ptype == PType.tech_inversion) =
      techInversions realms := by
    rw [List.filter_eq_self]
    intro p hp
    rw [beq_iff_eq]
    exact techInversions_ptype p hp
  have h2 : (ethicalContradictions realms).filter (fun p => p.ptype == PType.tech_inversion) =
      [] := by
    rw [List.filter_eq_nil]
    intro p hp
    rw [beq_iff_eq, ethicalContradictions_ptype p hp]
    intro hcon
    cases hcon
  have h3 : (contaminations tl gs).filter (fun p => p.ptype == PType.tech_inversion) = [] := by
    rw [List.filter_eq_nil]
    intro p hp
    rw [beq_iff_eq, contaminations_ptype p hp]
    intro hcon
    cases hcon
  rw [h1, h2, h3, List.append_nil, List.append_nil]

lemma techInversions_pair {r1 r2 : Realm}
    (h1 : r1.development_level = 2) (h2 : r2.development_level = 9) :
    techInversions [r1, r2] =
      [⟨PType.tech_inversion, 7/2, [r1.realm_id, r2.realm_id]⟩] := by
  unfold techInversions pairsAfter
  simp only [List.map_cons, List.map_nil, pairsAfter, List.append_nil, List.nil_append,
    List.cons_append, List.filterMap, h1, h2]
  norm_num

/-- Claim C5: for a timeline with exactly two realms whose development
levels are 2 and 9, `detect_paradoxes` returns exactly one paradox of
type tech_inversion for the pair, with severity 3.5, and swapping the
realm order yields the same affected-realm set. -/
theorem claim_C5_tech_inversion_pair (tl : Timeline) (gs : GameState) (r1 r2 : Realm)
    (h1 : r1.development_level = 2) (h2 : r2.development_level = 9) :
    (detect_paradoxes tl [r1, r2] gs).filter (fun p => p.ptype == PType.tech_inversion) =
      [⟨PType.tech_inversion, 7/2, [r1.realm_id, r2.realm_id]⟩] ∧
    (detect_paradoxes tl [r2, r1] gs).filter (fun p => p.ptype == PType.tech_inversion) =
      [⟨PType.tech_inversion, 7/2, [r2.realm_id, r1.realm_id]⟩] ∧
    ((detect_paradoxes tl [r1, r2] gs).filter
        (fun p => p.ptype == PType.tech_inversion)).map (fun p => p.affected.toFinset) =
      ((detect_paradoxes tl [r2, r1] gs).filter
        (fun p => p.ptype == PType.tech_inversion)).map (fun p => p.affected.toFinset) := by
  have hswap1 : techInversions [r2, r1] =
      [⟨PType.tech_inversion, 7/2, [r2.realm_id, r1.realm_id]⟩] := by
    unfold techInversions pairsAfter
    simp only [List.map_cons, List.map_nil, pairsAfter, List.append_nil, List.nil_append,
      List.cons_append, List.filterMap, h1, h2]
    norm_num
  have e1 := detect_paradoxes_filter_tech tl [r1, r2] gs
  have e2 := detect_paradoxes_filter_tech tl [r2, r1] gs
  rw [techInversions_pair h1 h2] at e1
  rw [hswap1] at e2
  refine ⟨e1, e2, ?_⟩
  rw [e1, e2]
  simp only [List.map_cons, List.map_nil]
  congr 1
  simp only [List.toFinset_cons, List.toFinset_nil]
  exact Finset.pair_comm _ _

/-- Concrete realms, timeline and game state instantiating the C5
scenario. -/
def r1W : Realm := ⟨1, 0, none, 2, 0, 0, 0, .balanced⟩

def r2W : Realm := ⟨2, 0, none, 9, 0, 0, 0, .balanced⟩

def tlW : Timeline := ⟨0, 50, [1, 2], []⟩

def gsW : GameState := ⟨[], [tlW], [r1W, r2W], 0, [], []⟩

theorem claim_C5_witness :
    r1W.development_level = 2 ∧ r2W.development_level = 9 ∧
    (detect_paradoxes tlW [r1W, r2W] gsW).filter
        (fun p => p.ptype == PType.tech_inversion) =
      [⟨PType.tech_inversion, 7/2, [r1W.realm_id, r2W.realm_id]⟩] :=
  ⟨rfl, rfl, (claim_C5_tech_inversion_pair tlW gsW r1W r2W rfl rfl).1⟩

/-! ## Claim C7: timeline similarity -/

lemma compare_tech_levels_nonneg (realms1 realms2 : List Realm) :
    0 ≤ compare_tech_levels realms1 realms2 := by
  unfold compare_tech_levels
  split_ifs
  · exact le_rfl
  · exact le_max_left _ _

lemma compare_ethical_alignments_nonneg (realms1 realms2 : List Realm) :
    0 ≤ compare_ethical_alignments realms1 realms2 := by
  unfold compare_ethical_alignments
  split_ifs
  · exact le_rfl
  · exact le_max_left _ _

lemma compare_timeline_events_nonneg (t1 t2 : Timeline) :
    0 ≤ compare_timeline_events t1 t2 := by
  simp only [compare_timeline_events]
  split_ifs with h1 h2
  · norm_num
  · apply div_nonneg
    · apply List.sum_nonneg
      intro x hx
      rw [List.mem_map] at hx
      obtain ⟨e1, _, he1⟩ := hx
      rw [← he1]
      apply List.sum_nonneg
      intro y hy
      rw [List.mem_map] at hy
      obtain ⟨e2, _, he2⟩ := hy
      rw [← he2]
      split_ifs <;> norm_num
    · positivity
  · norm_num

/-- Claim C7 counterexample: with two single-realm timelines of equal
average development and alignment whose event logs are two identical
events each, `calculate_timeline_similarity` returns 130, outside the
[0,100] range the claim asserts. -/
def evA : TimelineEvent := ⟨0, none⟩

def t1C : Timeline := ⟨1, 50, [1], [evA, evA]⟩

def t2C : Timeline := ⟨2, 50, [2], [evA, evA]⟩

def raC : Realm := ⟨1, 1, none, 5, 0, 0, 0, .balanced⟩

def rbC : Realm := ⟨2, 2, none, 5, 0, 0, 0, .balanced⟩

def gsC : GameState := ⟨[], [t1C, t2C], [raC, rbC], 0, [], []⟩

theorem claim_C7_counterexample :
    calculate_timeline_similarity t1C t2C gsC = 130 ∧
    ¬ (calculate_timeline_similarity t1C t2C gsC ≤ 100) := by
  have hf1 : gsC.realms.filter (fun r => r.timeline_id == t1C.timeline_id) = [raC] := rfl
  have hf2 : gsC.realms.filter (fun r => r.timeline_id == t2C.timeline_id) = [rbC] := rfl
  have ht : compare_tech_levels [raC] [rbC] = 1 := by
    simp only [compare_tech_levels]
    norm_num [raC, rbC]
  have he : compare_ethical_alignments [raC] [rbC] = 1 := by
    simp only [compare_ethical_alignments]
    norm_num [raC, rbC]
  have hev : compare_timeline_events t1C t2C = 2 := by
    simp only [compare_timeline_events, t1C, t2C]
    rw [if_neg (by decide)]
    norm_num [evA]
  have h : calculate_timeline_similarity t1C t2C gsC = 130 := by
    simp only [calculate_timeline_similarity]
    rw [hf1, hf2]
    rw [if_neg (by simp)]
    rw [ht, he, hev]
    norm_num
  refine ⟨h, ?_⟩
  rw [h]
  norm_num

/-- Claim C7 (amended): for timelines that both have at least one
member realm, `calculate_timeline_similarity` equals 100 times the
0.3/0.4/0.3 blend of tech similarity max(0, 1-|avgDev1-avgDev2|/10),
ethical similarity max(0, 1-|avgAlign1-avgAlign2|/200) and the event
overlap ratio (which defaults to 0.5 when either side has no events
but is NOT capped at 1), so the result is nonnegative but can exceed
100. -/
theorem claim_C7_amended_similarity_formula (t1 t2 : Timeline) (gs : GameState)
    (h1 : gs.realms.filter (fun r => r.timeline_id == t1.timeline_id) ≠ [])
    (h2 : gs.realms.filter (fun r => r.timeline_id == t2.timeline_id) ≠ []) :
    calculate_timeline_similarity t1 t2 gs =
      100 * ((3/10) * max 0 (1 -
          |((gs.realms.filter (fun r => r.timeline_id == t1.timeline_id)).map
              (fun r => (r.development_level : ℚ))).sum /
            ((gs.realms.filter (fun r => r.timeline_id == t1.timeline_id)).length : ℚ) -
           ((gs.realms.filter (fun r => r.timeline_id == t2.timeline_id)).map
              (fun r => (r.development_level : ℚ))).sum /
            ((gs.realms.filter (fun r => r.timeline_id == t2.timeline_id)).length : ℚ)| / 10) +
        (4/10) * max 0 (1 -
          |((gs.realms.filter (fun r => r.timeline_id == t1.timeline_id)).map
              (fun r => r.ethical_alignment)).sum /
            ((gs.realms.filter (fun r => r.timeline_id == t1.timeline_id)).length : ℚ) -
           ((gs.realms.filter (fun r => r.timeline_id == t2.timeline_id)).map
              (fun r => r.ethical_alignment)).sum /
            ((gs.realms.filter (fun r => r.timeline_id == t2.timeline_id)).length : ℚ)| / 200) +
        (3/10) * compare_timeline_events t1 t2) ∧
    0 ≤ calculate_timeline_similarity t1 t2 gs := by
  constructor
  · unfold calculate_timeline_similarity
    rw [if_neg (by
      push_neg
      exact ⟨h1, h2⟩)]
    unfold compare_tech_levels compare_ethical_alignments
    rw [if_neg (by
      push_neg
      exact ⟨h1, h2⟩)]
    rw [if_neg (by
      push_neg
      exact ⟨h1, h2⟩)]
    ring
  · simp only [calculate_timeline_similarity]
    split_ifs
    · exact le_rfl
    · have ht := compare_tech_levels_nonneg
        (gs.realms.filter (fun r => r.timeline_id == t1.timeline_id))
        (gs.realms.filter (fun r => r.timeline_id == t2.timeline_id))
      have he := compare_ethical_alignments_nonneg
        (gs.realms.filter (fun r => r.timeline_id == t1.timeline_id))
        (gs.realms.filter (fun r => r.timeline_id == t2.timeline_id))
      have hv := compare_timeline_events_nonneg t1 t2
      positivity

theorem claim_C7_witness :
    gsC.realms.filter (fun r => r.timeline_id == t1C.timeline_id) ≠ [] ∧
    gsC.realms.filter (fun r => r.timeline_id == t2C.timeline_id) ≠ [] ∧
    0 ≤ calculate_timeline_similarity t1C t2C gsC :=
  ⟨by decide, by decide,
   (claim_C7_amended_similarity_formula t1C t2C gsC (by decide) (by decide)).2⟩

/-! ## Claim C8: empty-realm guards -/

/-- Claim C8: a realm count of zero never causes a division failure —
`_calculate_tech_disparity` returns 0.0 for an empty or single-element
realm list, `_calculate_ethical_alignment` returns 0.0 for an empty
realm list, and `calculate_timeline_similarity` returns 0.0 when
either timeline has no member realms; every division-by-length branch
sits behind one of these guards. -/
theorem claim_C8_zero_realm_guards :
    calculate_tech_disparity ([] : List Realm) = 0 ∧
    (∀ r : Realm, calculate_tech_disparity [r] = 0) ∧
    calculate_ethical_alignment ([] : List Realm) = 0 ∧
    (∀ (t1 t2 : Timeline) (gs : GameState),
      (gs.realms.filter (fun r => r.timeline_id == t1.timeline_id) = [] ∨
       gs.realms.filter (fun r => r.timeline_id == t2.timeline_id) = []) →
      calculate_timeline_similarity t1 t2 gs = 0) := by
  refine ⟨?_, ?_, ?_, ?_⟩
  · simp [calculate_tech_disparity]
  · intro r
    simp [calculate_tech_disparity]
  · simp [calculate_ethical_alignment]
  · intro t1 t2 gs h
    simp only [calculate_timeline_similarity]
    rw [if_pos h]

/-- An empty-board game state and a realm-less timeline witnessing the
zero-realm guard of `calculate_timeline_similarity`. -/
def tlO : Timeline := ⟨7, 0, [], []⟩

def gsO : GameState := ⟨[], [tlO], [], 0, [], []⟩

theorem claim_C8_witness :
    (gsO.realms.filter (fun r => r.timeline_id == tlO.timeline_id) = [] ∨
     gsO.realms.filter (fun r => r.timeline_id == tlO.timeline_id) = []) ∧
    calculate_timeline_similarity tlO tlO gsO = 0 :=
  ⟨Or.inl rfl, claim_C8_zero_realm_guards.2.2.2 tlO tlO gsO (Or.inl rfl)⟩

/-! ## Claim C2: the stability formula -/

/-- The stability formula exactly as claim C2 words it: weight 0.4
times the clamped *unscaled* sum of `karma_impact` over recent events
touching the timeline (the implementation scales each impact by 0.5
before summing — this definition exists to exhibit that divergence). -/
noncomputable def claimedStability (tl : Timeline) (realms : List Realm)
    (gs : GameState) : ℝ :=
  let karma_term : ℚ := max (-20) (min 20
    (((lastN 10 gs.events_history).filter
        (fun e => e.affected_realms.any (fun rid => tl.realms.contains rid))).map
      (fun e => e.karma_impact)).sum)
  let alignment_term : ℚ := calculate_ethical_alignment realms / 10
  let disparity_term : ℝ := -(calculate_tech_disparity realms)
  let rift_term : ℚ := -5 * ((gs.time_rifts.filter
      (fun r => !r.resolved && r.timeline_id == tl.timeline_id)).map
      (fun r => r.severity)).sum
  let paradox_term : ℝ := -10 * ((detect_paradoxes tl realms gs).length : ℝ)
  max 0 (min 100 ((tl.stability : ℝ) +
    ((4/10) * (karma_term : ℝ) + (3/10) * (alignment_term : ℝ) +
      (2/10) * disparity_term + (5/10) * (rift_term : ℝ) + (7/10) * paradox_term)))

lemma decisionImpactRaw_eq (tl : Timeline) (gs : GameState) :
    decisionImpactRaw tl gs =
      (5/10) * (((lastN 10 gs.events_history).filter
          (fun e => e.affected_realms.any (fun rid => tl.realms.contains rid))).map
        (fun e => e.karma_impact)).sum := by
  unfold decisionImpactRaw
  have key : ∀ (l : List GEvent) (a : ℚ),
      l.foldl (fun acc e =>
        if e.affected_realms.any (fun rid => tl.realms.contains rid) then
          acc + e.karma_impact * (5/10)
        else acc) a =
      a + (5/10) * ((l.filter
          (fun e => e.affected_realms.any (fun rid => tl.realms.contains rid))).map
        (fun e => e.karma_impact)).sum := by
    intro l
    induction l with
    | nil => intro a; simp
    | cons e t ih =>
      intro a
      by_cases hc : (e.affected_realms.any fun rid => tl.realms.contains rid) = true
      · simp only [List.foldl_cons, List.filter_cons, hc, if_pos, List.map_cons,
          List.sum_cons, ih]
        ring
      · rw [List.foldl_cons, List.filter_cons]
        simp only [hc]
        rw [if_neg (by simp [hc]), ih]
        simp only [Bool.false_eq_true, if_false]
  rw [key]
  ring

lemma riftImpact_eq (tl : Timeline) (gs : GameState) :
    riftImpact tl gs =
      -5 * ((gs.time_rifts.filter
          (fun r => !r.resolved && r.timeline_id == tl.timeline_id)).map
        (fun r => r.severity)).sum := by
  unfold riftImpact
  have key : ∀ (l : List TimeRift) (a : ℚ),
      l.foldl (fun acc r =>
        if ¬ r.resolved then
          if r.timeline_id = tl.timeline_id then acc - r.severity * 5 else acc
        else acc) a =
      a + -5 * ((l.filter
          (fun r => !r.resolved && r.timeline_id == tl.timeline_id)).map
        (fun r => r.severity)).sum := by
    intro l
    induction l with
    | nil => intro a; simp
    | cons r t ih =>
      intro a
      rw [List.foldl_cons, List.filter_cons]
      by_cases hres : r.resolved
      · rw [if_neg (by simp [hres])]
        have : (!r.resolved && r.timeline_id == tl.timeline_id) = false := by
          simp [hres]
        rw [this]
        simp only [Bool.false_eq_true, if_false]
        exact ih a
      · rw [if_pos (by simp [hres])]
        by_cases htid : r.timeline_id = tl.timeline_id
        · have : (!r.resolved && r.timeline_id == tl.timeline_id) = true := by
            simp [hres, htid]
          rw [this, if_pos htid]
          simp only [if_true]
          rw [ih]
          simp only [List.map_cons, List.sum_cons]
          ring
        · have : (!r.resolved && r.timeline_id == tl.timeline_id) = false := by
            simp [hres, htid]
          rw [this, if_neg htid]
          simp only [Bool.false_eq_true, if_false]
          exact ih a
  rw [key]
  ring

/-- Claim C2 (amended): `calculate_stability` is the clamp to [0,100]
of the stored stability plus the weighted sum of the five signed
terms, where the karma term sums `0.5 * karma_impact` (not the raw
`karma_impact`) over the last 10 events touching this timeline's
realms before clamping to [-20,20]; the other four terms are as the
claim states them. -/
theorem claim_C2_amended_stability_formula (tl : Timeline) (realms : List Realm)
    (gs : GameState) :
    calculate_stability tl realms gs =
      max 0 (min 100 ((tl.stability : ℝ) +
        ((4/10) * ((max (-20) (min 20
            ((5/10) * (((lastN 10 gs.events_history).filter
                (fun e => e.affected_realms.any (fun rid => tl.realms.contains rid))).map
              (fun e => e.karma_impact)).sum)) : ℚ) : ℝ) +
          (3/10) * ((calculate_ethical_alignment realms / 10 : ℚ) : ℝ) +
          (2/10) * (-(calculate_tech_disparity realms)) +
          (5/10) * ((-5 * ((gs.time_rifts.filter
              (fun r => !r.resolved && r.timeline_id == tl.timeline_id)).map
            (fun r => r.severity)).sum : ℚ) : ℝ) +
          (7/10) * (-10 * ((detect_paradoxes tl realms gs).length : ℝ))))) := by
  simp only [calculate_stability]
  rw [decisionImpactRaw_eq, riftImpact_eq]
  congr 1
  congr 1
  push_cast
  ring

/-- Concrete instance for the C2 counterexample: stored stability 50,
one recent event with karma impact 10 touching this timeline's realm,
no realm records, rifts or paradoxes. -/
def tl2C : Timeline := ⟨3, 50, [10], []⟩

def e2C : GEvent := ⟨[10], 10⟩

def gs2C : GameState := ⟨[], [tl2C], [], 0, [e2C], []⟩

/-- Claim C2 counterexample: the claim's formula (karma impacts summed
unscaled) gives 54 on this state, but `calculate_stability` scales
each impact by 0.5 and returns 52. -/
theorem claim_C2_counterexample :
    calculate_stability tl2C [] gs2C = 52 ∧
    claimedStability tl2C [] gs2C = 54 ∧
    calculate_stability tl2C [] gs2C ≠ claimedStability tl2C [] gs2C := by
  have hal : calculate_ethical_alignment ([] : List Realm) = 0 := by
    simp [calculate_ethical_alignment]
  have hdisp : calculate_tech_disparity ([] : List Realm) = 0 := by
    simp [calculate_tech_disparity]
  have hpar : detect_paradoxes tl2C [] gs2C = [] := by decide
  have hd : decisionImpactRaw tl2C gs2C = 5 := by
    unfold decisionImpactRaw
    show List.foldl _ 0 (lastN 10 [e2C]) = 5
    have : lastN 10 [e2C] = [e2C] := rfl
    rw [this, List.foldl_cons, List.foldl_nil]
    rw [if_pos (by decide)]
    norm_num [e2C]
  have hrift : riftImpact tl2C gs2C = 0 := rfl
  have hcode : calculate_stability tl2C [] gs2C = 52 := by
    simp only [calculate_stability]
    rw [hd, hal, hdisp, hrift, hpar]
    norm_num [min_def, max_def, tl2C]
  have hclaim : claimedStability tl2C [] gs2C = 54 := by
    have hk : ((lastN 10 gs2C.events_history).filter
        (fun e => e.affected_realms.any (fun rid => tl2C.realms.contains rid))).map
          (fun e => e.karma_impact) = [10] := by
      show ((lastN 10 [e2C]).filter _).map _ = [10]
      have h1 : lastN 10 [e2C] = [e2C] := rfl
      rw [h1, List.filter_cons]
      rw [if_pos (by decide)]
      rfl
    simp only [claimedStability]
    rw [hk, hal, hdisp, hpar]
    norm_num [min_def, max_def, tl2C, gs2C]
  refine ⟨hcode, hclaim, ?_⟩
  rw [hcode, hclaim]
  norm_num

/-! ## Claim C9: disaster events -/

/-- Claim C9: for every realm and every disaster event data (any
severity) and any random draws, `process_realm_event` with event type
"disaster" leaves the development level unchanged, and afterwards
resources ≥ 10 and population ≥ 1000 (the mitigated negative impacts
are floored at those bounds). -/
theorem claim_C9_disaster_frame (realm : Realm) (event_data : EventData) (rng : List ℚ) :
    (process_realm_event realm .disaster event_data rng).1.development_level =
      realm.development_level ∧
    10 ≤ (process_realm_event realm .disaster event_data rng).1.resources ∧
    1000 ≤ (process_realm_event realm .disaster event_data rng).1.population := by
  refine ⟨?_, ?_, ?_⟩
  · simp [process_realm_event]
  · simp only [process_realm_event]
    exact le_max_left _ _
  · simp only [process_realm_event]
    exact le_max_left _ _

/-! ## Claim C10: development-level jumps in update_realm -/

lemma newLevelAux_ge (pts : ℚ) :
    ∀ (ts : List ℤ) (idx acc : ℤ), acc ≤ idx + 1 → acc ≤ newLevelAux pts ts idx acc := by
  intro ts
  induction ts with
  | nil => intro idx acc _; exact le_rfl
  | cons t ts ih =>
    intro idx acc hacc
    simp only [newLevelAux]
    split_ifs
    · exact le_trans hacc (ih (idx + 1) (idx + 1) (by omega))
    · exact le_rfl

lemma newLevelAux_le (pts : ℚ) :
    ∀ (ts : List ℤ) (idx acc : ℤ), newLevelAux pts ts idx acc ≤ max acc (idx + ts.length) := by
  intro ts
  induction ts with
  | nil => intro idx acc; exact le_max_left _ _
  | cons t ts ih =>
    intro idx acc
    simp only [newLevelAux]
    split_ifs
    · refine le_trans (ih (idx + 1) (idx + 1)) ?_
      apply max_le
      · apply le_max_of_le_right
        simp only [List.length_cons]
        push_cast
        omega
      · apply le_max_of_le_right
        simp only [List.length_cons]
        push_cast
        omega
    · exact le_max_left _ _

lemma newLevelAux_append (pts : ℚ) :
    ∀ (ts1 ts2 : List ℤ) (idx acc : ℤ),
      (∀ t ∈ ts1, (t : ℚ) ≤ pts) → ts1 ≠ [] →
      newLevelAux pts (ts1 ++ ts2) idx acc =
        newLevelAux pts ts2 (idx + ts1.length) (idx + ts1.length) := by
  intro ts1
  induction ts1 with
  | nil => intro ts2 idx acc _ hne; exact absurd rfl hne
  | cons t ts1 ih =>
    intro ts2 idx acc hall _
    rw [List.cons_append]
    simp only [newLevelAux]
    rw [if_pos (hall t (List.mem_cons_self t ts1))]
    by_cases hnil : ts1 = []
    · subst hnil
      simp
    · rw [ih ts2 (idx + 1) (idx + 1) (fun x hx => hall x (List.mem_cons_of_mem t hx))
        hnil]
      have harith : idx + 1 + (ts1.length : ℤ) = idx + ((t :: ts1).length : ℤ) := by
        simp only [List.length_cons]
        push_cast
        ring
      rw [harith]

lemma newLevel_le_ten (pts : ℚ) : newLevel pts ≤ 10 := by
  have h := newLevelAux_le pts TECH_LEVEL_THRESHOLDS 0 1
  unfold newLevel
  have hlen : (TECH_LEVEL_THRESHOLDS.length : ℤ) = 10 := rfl
  rw [hlen] at h
  calc newLevelAux pts TECH_LEVEL_THRESHOLDS 0 1 ≤ max 1 (0 + 10) := h
  _ = 10 := by norm_num

lemma newLevel_ge_of_threshold {pts : ℚ} (k : ℕ) (hk1 : 1 ≤ k) (hk2 : k ≤ 9)
    (h : ∀ t ∈ TECH_LEVEL_THRESHOLDS.take (k + 1), (t : ℚ) ≤ pts) :
    ((k : ℤ) + 1) ≤ newLevel pts := by
  have hsplit : TECH_LEVEL_THRESHOLDS =
      TECH_LEVEL_THRESHOLDS.take (k + 1) ++ TECH_LEVEL_THRESHOLDS.drop (k + 1) :=
    (List.take_append_drop (k + 1) TECH_LEVEL_THRESHOLDS).symm
  have hne : TECH_LEVEL_THRESHOLDS.take (k + 1) ≠ [] := by
    have : (TECH_LEVEL_THRESHOLDS.take (k + 1)).length = k + 1 := by
      rw [List.length_take]
      show min (k + 1) 10 = k + 1
      omega
    intro hcon
    rw [hcon] at this
    simp at this
  unfold newLevel
  rw [hsplit, newLevelAux_append pts _ _ 0 1 h hne]
  have hlen : ((TECH_LEVEL_THRESHOLDS.take (k + 1)).length : ℤ) = (k : ℤ) + 1 := by
    rw [List.length_take]
    have : min (k + 1) TECH_LEVEL_THRESHOLDS.length = k + 1 := by
      show min (k + 1) 10 = k + 1
      omega
    rw [this]
    push_cast
    ring
  rw [hlen]
  have := newLevelAux_ge pts (TECH_LEVEL_THRESHOLDS.drop (k + 1))
    (0 + ((k : ℤ) + 1)) (0 + ((k : ℤ) + 1)) (by omega)
  omega

lemma logb_ten_thousand : Real.logb 10 1000 = 3 := by
  have h : (1000 : ℝ) = 10 ^ (3 : ℕ) := by norm_num
  rw [h, Real.logb_pow, Real.logb_self_eq_one (by norm_num)]
  norm_num

lemma population_factor_ge_one (pop : ℚ) :
    (1 : ℝ) ≤ Real.logb 10 (max 1000 (pop : ℝ)) - 2 := by
  have h1 : (1000 : ℝ) ≤ max 1000 (pop : ℝ) := le_max_left _ _
  have h2 : Real.logb 10 1000 ≤ Real.logb 10 (max 1000 (pop : ℝ)) :=
    Real.logb_le_logb_of_le (by norm_num) (by norm_num) h1
  rw [logb_ten_thousand] at h2
  linarith

lemma fract_nonneg_q (q : ℚ) : 0 ≤ fract q := by
  unfold fract
  have := Int.floor_le q
  linarith

lemma fract_lt_one_q (q : ℚ) : fract q < 1 := by
  unfold fract
  have := Int.lt_floor_add_one q
  linarith

lemma randFloat_fst_nonneg (rng : List ℚ) : 0 ≤ (randFloat rng).1 := by
  cases rng with
  | nil => exact le_rfl
  | cons u rest => exact fract_nonneg_q u

lemma randFloat_fst_lt_one (rng : List ℚ) : (randFloat rng).1 < 1 := by
  cases rng with
  | nil => norm_num [randFloat]
  | cons u rest => exact fract_lt_one_q u

lemma pyIntR_nonneg {x : ℝ} (h : 0 ≤ x) : 0 ≤ pyIntR x := by
  unfold pyIntR
  rw [if_pos h]
  exact Int.le_floor.mpr (by exact_mod_cast h)

lemma development_progress_nonneg (realm : Realm) (rng : List ℚ) :
    0 ≤ (calculate_development_progress realm rng).1 := by
  simp only [calculate_development_progress]
  apply pyIntR_nonneg
  have hpf : (1 : ℝ) ≤ Real.logb 10 (max 1000 (realm.population : ℝ)) - 2 :=
    population_factor_ge_one _
  have hrf : (0 : ℝ) ≤ Real.sqrt (max 1 (realm.resources : ℝ)) * 0.5 := by positivity
  have htf : (0 : ℝ) ≤ 1 / Real.sqrt ((realm.development_level : ℝ)) := by positivity
  have hu : (0 : ℝ) ≤ ((randFloat rng).1 : ℝ) := by
    exact_mod_cast randFloat_fst_nonneg rng
  have hprod : (0 : ℝ) ≤ (Real.logb 10 (max 1000 (realm.population : ℝ)) - 2) *
      (Real.sqrt (max 1 (realm.resources : ℝ)) * 0.5) *
      (1 / Real.sqrt ((realm.development_level : ℝ))) :=
    mul_nonneg (mul_nonneg (by linarith) hrf) htf
  have hvar : (0 : ℝ) ≤ 0.85 + ((randFloat rng).1 : ℝ) * (1.15 - 0.85) := by nlinarith
  exact mul_nonneg (by linarith) hvar

lemma update_realm_dev (realm : Realm) (gs : GameState) (rng : List ℚ) :
    ∃ rng' : List ℚ,
      (update_realm realm gs rng).1.development_level =
        if newLevel (((realm.development_level *
            pyIndex TECH_LEVEL_THRESHOLDS (min 9 realm.development_level) +
            (calculate_development_progress realm rng').1 : ℤ) : ℚ)) >
            realm.development_level
        then newLevel (((realm.development_level *
            pyIndex TECH_LEVEL_THRESHOLDS (min 9 realm.development_level) +
            (calculate_development_progress realm rng').1 : ℤ) : ℚ))
        else realm.development_level := by
  refine ⟨(calculate_population_change realm ((calculate_resource_change realm rng).2)).2, ?_⟩
  simp only [update_realm]
  split_ifs <;> rfl

lemma newLevel_ge_num {pts : ℚ} (k : ℕ) (thr : ℤ) (hk1 : 1 ≤ k) (hk2 : k ≤ 9)
    (hthr : ∀ t ∈ TECH_LEVEL_THRESHOLDS.take (k + 1), t ≤ thr)
    (h : ((thr : ℤ) : ℚ) ≤ pts) : ((k : ℤ) + 1) ≤ newLevel pts := by
  apply newLevel_ge_of_threshold k hk1 hk2
  intro t ht
  calc (t : ℚ) ≤ (thr : ℚ) := by exact_mod_cast hthr t ht
  _ ≤ pts := h

/-- Claim C10 (implicit): for every realm with development level in
[1,9] a single `update_realm` call strictly increases the development
level (whatever the random draws and the rest of the state), because
the accumulated points are reconstructed as
`development_level * TECH_LEVEL_THRESHOLDS[min(9, development_level)]`,
which already meets a higher level's threshold; a level-5 realm
reaches at least level 8 in one call; a level-10 realm stays at 10. -/
theorem claim_C10_level_jumps :
    (∀ (realm : Realm) (gs : GameState) (rng : List ℚ),
      1 ≤ realm.development_level → realm.development_level ≤ 9 →
      realm.development_level < (update_realm realm gs rng).1.development_level) ∧
    (∀ (realm : Realm) (gs : GameState) (rng : List ℚ),
      realm.development_level = 5 →
      8 ≤ (update_realm realm gs rng).1.development_level) ∧
    (∀ (realm : Realm) (gs : GameState) (rng : List ℚ),
      realm.development_level = 10 →
      (update_realm realm gs rng).1.development_level = 10) := by
  refine ⟨?_, ?_, ?_⟩
  · intro realm gs rng h1 h9
    obtain ⟨rng', hdev⟩ := update_realm_dev realm gs rng
    set prog := (calculate_development_progress realm rng').1 with hpd
    have hprog : 0 ≤ prog := development_progress_nonneg realm rng'
    obtain ⟨d, hd⟩ : ∃ d, realm.development_level = d := ⟨_, rfl⟩
    rw [hd] at h1 h9 hdev ⊢
    rw [hdev]
    interval_cases d
    · have hpy : pyIndex TECH_LEVEL_THRESHOLDS (min 9 (1 : ℤ)) = 100 := by decide
      rw [hpy]
      have hgeq : ((100 : ℤ) : ℚ) ≤ ((1 * 100 + prog : ℤ) : ℚ) := by
        have h' : (100 : ℤ) ≤ 1 * 100 + prog := by omega
        exact_mod_cast h'
      have hk := newLevel_ge_num 1 100 (by norm_num) (by norm_num) (by decide) hgeq
      rw [if_pos (by omega)]
      omega
    · have hpy : pyIndex TECH_LEVEL_THRESHOLDS (min 9 (2 : ℤ)) = 250 := by decide
      rw [hpy]
      have hgeq : ((500 : ℤ) : ℚ) ≤ ((2 * 250 + prog : ℤ) : ℚ) := by
        have h' : (500 : ℤ) ≤ 2 * 250 + prog := by omega
        exact_mod_cast h'
      have hk := newLevel_ge_num 3 500 (by norm_num) (by norm_num) (by decide) hgeq
      rw [if_pos (by omega)]
      omega
    · have hpy : pyIndex TECH_LEVEL_THRESHOLDS (min 9 (3 : ℤ)) = 500 := by decide
      rw [hpy]
      have hgeq : ((1500 : ℤ) : ℚ) ≤ ((3 * 500 + prog : ℤ) : ℚ) := by
        have h' : (1500 : ℤ) ≤ 3 * 500 + prog := by omega
        exact_mod_cast h'
      have hk := newLevel_ge_num 4 1500 (by norm_num) (by norm_num) (by decide) hgeq
      rw [if_pos (by omega)]
      omega
    · have hpy : pyIndex TECH_LEVEL_THRESHOLDS (min 9 (4 : ℤ)) = 1000 := by decide
      rw [hpy]
      have hgeq : ((4000 : ℤ) : ℚ) ≤ ((4 * 1000 + prog : ℤ) : ℚ) := by
        have h' : (4000 : ℤ) ≤ 4 * 1000 + prog := by omega
        exact_mod_cast h'
      have hk := newLevel_ge_num 6 4000 (by norm_num) (by norm_num) (by decide) hgeq
      rw [if_pos (by omega)]
      omega
    · have hpy : pyIndex TECH_LEVEL_THRESHOLDS (min 9 (5 : ℤ)) = 2000 := by decide
      rw [hpy]
      have hgeq : ((10000 : ℤ) : ℚ) ≤ ((5 * 2000 + prog : ℤ) : ℚ) := by
        have h' : (10000 : ℤ) ≤ 5 * 2000 + prog := by omega
        exact_mod_cast h'
      have hk := newLevel_ge_num 7 10000 (by norm_num) (by norm_num) (by decide) hgeq
      rw [if_pos (by omega)]
      omega
    · have hpy : pyIndex TECH_LEVEL_THRESHOLDS (min 9 (6 : ℤ)) = 4000 := by decide
      rw [hpy]
      have hgeq : ((24000 : ℤ) : ℚ) ≤ ((6 * 4000 + prog : ℤ) : ℚ) := by
        have h' : (24000 : ℤ) ≤ 6 * 4000 + prog := by omega
        exact_mod_cast h'
      have hk := newLevel_ge_num 8 24000 (by norm_num) (by norm_num) (by decide) hgeq
      rw [if_pos (by omega)]
      omega
    · have hpy : pyIndex TECH_LEVEL_THRESHOLDS (min 9 (7 : ℤ)) = 8000 := by decide
      rw [hpy]
      have hgeq : ((56000 : ℤ) : ℚ) ≤ ((7 * 8000 + prog : ℤ) : ℚ) := by
        have h' : (56000 : ℤ) ≤ 7 * 8000 + prog := by omega
        exact_mod_cast h'
      have hk := newLevel_ge_num 8 56000 (by norm_num) (by norm_num) (by decide) hgeq
      rw [if_pos (by omega)]
      omega
    · have hpy : pyIndex TECH_LEVEL_THRESHOLDS (min 9 (8 : ℤ)) = 16000 := by decide
      rw [hpy]
      have hgeq : ((128000 : ℤ) : ℚ) ≤ ((8 * 16000 + prog : ℤ) : ℚ) := by
        have h' : (128000 : ℤ) ≤ 8 * 16000 + prog := by omega
        exact_mod_cast h'
      have hk := newLevel_ge_num 9 128000 (by norm_num) (by norm_num) (by decide) hgeq
      rw [if_pos (by omega)]
      omega
    · have hpy : pyIndex TECH_LEVEL_THRESHOLDS (min 9 (9 : ℤ)) = 32000 := by decide
      rw [hpy]
      have hgeq : ((288000 : ℤ) : ℚ) ≤ ((9 * 32000 + prog : ℤ) : ℚ) := by
        have h' : (288000 : ℤ) ≤ 9 * 32000 + prog := by omega
        exact_mod_cast h'
      have hk := newLevel_ge_num 9 288000 (by norm_num) (by norm_num) (by decide) hgeq
      rw [if_pos (by omega)]
      omega
  · intro realm gs rng h5
    obtain ⟨rng', hdev⟩ := update_realm_dev realm gs rng
    set prog := (calculate_development_progress realm rng').1 with hpd
    have hprog : 0 ≤ prog := development_progress_nonneg realm rng'
    rw [h5] at hdev
    rw [hdev]
    have hpy : pyIndex TECH_LEVEL_THRESHOLDS (min 9 (5 : ℤ)) = 2000 := by decide
    rw [hpy]
    have hgeq : ((8000 : ℤ) : ℚ) ≤ ((5 * 2000 + prog : ℤ) : ℚ) := by
      have h' : (8000 : ℤ) ≤ 5 * 2000 + prog := by omega
      exact_mod_cast h'
    have hk := newLevel_ge_num 7 8000 (by norm_num) (by norm_num) (by decide) hgeq
    rw [if_pos (by omega)]
    omega
  · intro realm gs rng h10
    obtain ⟨rng', hdev⟩ := update_realm_dev realm gs rng
    rw [h10] at hdev
    rw [hdev]
    have hle := newLevel_le_ten (((10 * pyIndex TECH_LEVEL_THRESHOLDS (min 9 (10 : ℤ)) +
      (calculate_development_progress realm rng').1 : ℤ) : ℚ))
    rw [if_neg (by omega)]

/-- A concrete level-5 realm for the C10 witness. -/
def r10W : Realm := ⟨3, 0, none, 5, 40, 2000000, 0, .ecological⟩

theorem claim_C10_witness :
    (1 : ℤ) ≤ r10W.development_level ∧ r10W.development_level ≤ 9 ∧
    r10W.development_level < (update_realm r10W gsO []).1.development_level :=
  ⟨by decide, by decide, claim_C10_level_jumps.1 r10W gsO [] (by decide) (by decide)⟩

/-! ## Claim C6: time-rift generation -/

lemma pyIntR_eq_floor {x : ℝ} (h : 0 ≤ x) : pyIntR x = ⌊x⌋ := by
  unfold pyIntR
  rw [if_pos h]

lemma riftCandidates_mem {gs : GameState} {c : RiftCandidate}
    (hc : c ∈ riftCandidates gs) :
    c.stability < 30 ∧ c.chance = (30 - c.stability) / 30 := by
  unfold riftCandidates at hc
  rw [List.mem_filterMap] at hc
  obtain ⟨tl, _, htl⟩ := hc
  dsimp only at htl
  split_ifs at htl with hs
  cases htl
  exact ⟨hs, rfl⟩

lemma insertDesc_mem {c d : RiftCandidate} {l : List RiftCandidate}
    (hd : d ∈ insertDesc c l) : d = c ∨ d ∈ l := by
  induction l with
  | nil =>
    simp only [insertDesc, List.mem_singleton] at hd
    exact Or.inl hd
  | cons e t ih =>
    simp only [insertDesc] at hd
    split_ifs at hd
    · rcases List.mem_cons.mp hd with h1 | h1
      · exact Or.inl h1
      · exact Or.inr h1
    · rcases List.mem_cons.mp hd with h1 | h1
      · exact Or.inr (List.mem_cons.mpr (Or.inl h1))
      · rcases ih h1 with h2 | h2
        · exact Or.inl h2
        · exact Or.inr (List.mem_cons.mpr (Or.inr h2))

lemma sortCandidatesDesc_mem {d : RiftCandidate} :
    ∀ {l : List RiftCandidate}, d ∈ sortCandidatesDesc l → d ∈ l := by
  intro l
  induction l with
  | nil => intro hd; simp [sortCandidatesDesc] at hd
  | cons c t ih =>
    intro hd
    simp only [sortCandidatesDesc] at hd
    rcases insertDesc_mem hd with h1 | h1
    · exact List.mem_cons.mpr (Or.inl h1)
    · exact List.mem_cons.mpr (Or.inr (ih h1))

lemma selectCandidate_mem {c : RiftCandidate} :
    ∀ {l : List RiftCandidate} {rng : List ℚ},
      (selectCandidate l rng).1 = some c → c ∈ l := by
  intro l
  induction l with
  | nil => intro rng h; simp [selectCandidate] at h
  | cons e t ih =>
    intro rng h
    simp only [selectCandidate] at h
    split_ifs at h
    · cases h
      exact List.mem_cons_self _ _
    · exact List.mem_cons.mpr (Or.inr (ih h))

/-- The candidate pool exactly as claim C6 words it: the timelines
whose computed stability is below 30, each carrying its member realm
records and rift probability `(30 - stability)/30`.  Modelled from
the claim for comparison with `riftCandidates`. -/
noncomputable def spec_rift_candidates (gs : GameState) : List RiftCandidate :=
  (gs.timelines.map (fun tl =>
    let realms := gs.realms.filter (fun r => r.timeline_id == tl.timeline_id)
    let stability := calculate_stability tl realms gs
    RiftCandidate.mk tl realms stability ((30 - stability) / 30))).filter
    (fun c => c.stability < 30)

/-- The rift generator exactly as claim C6 words it, with the one
amendment the counterexample forces: candidates sorted by probability
descending, one Bernoulli trial each in order, first success wins; the
rift's realm is drawn uniformly from the winning timeline's member
realms and the severity is `min(5, max(1, floor((30-stability)/5)+1))`
— and when the winning timeline has no member realm records the
function returns none. -/
noncomputable def spec_generate_time_rift (gs : GameState) (rng : List ℚ) :
    Option GeneratedRift × List ℚ :=
  let candidates := sortCandidatesDesc (spec_rift_candidates gs)
  let sel := (selectCandidate candidates rng).1
  let rng1 := (selectCandidate candidates rng).2
  match sel with
  | none => (none, rng1)
  | some selected =>
    if selected.realms = [] then (none, rng1)
    else
      match (chooseFrom selected.realms rng1).1 with
      | none => (none, (chooseFrom selected.realms rng1).2)
      | some realm =>
        let rng2 := (chooseFrom selected.realms rng1).2
        let severity := min 5 (max 1 (⌊(30 - selected.stability) / 5⌋ + 1))
        let x := (randIntIncl 0 100 rng2).1
        let rng3 := (randIntIncl 0 100 rng2).2
        let y := (randIntIncl 0 100 rng3).1
        let rng4 := (randIntIncl 0 100 rng3).2
        (some ⟨selected.timeline.timeline_id, realm.realm_id, x, y, severity,
               (severity - 1).toNat, gs.current_turn, false⟩, rng4)

lemma spec_rift_candidates_eq (gs : GameState) :
    spec_rift_candidates gs = riftCandidates gs := by
  unfold spec_rift_candidates riftCandidates
  induction gs.timelines with
  | nil => rfl
  | cons tl rest ih =>
    rw [List.map_cons, List.filter_cons, List.filterMap_cons]
    dsimp only
    by_cases hs : calculate_stability tl
        (List.filter (fun r => r.timeline_id == tl.timeline_id) gs.realms) gs < 30
    · rw [if_pos (decide_eq_true hs), if_pos hs]
      dsimp only
      rw [ih]
    · rw [if_neg (by simp [hs]), if_neg hs]
      dsimp only
      exact ih

/-- Claim C6 (amended): `generate_time_rift` considers exactly the
timelines with computed stability below 30 with probability
`(30-stability)/30`, sorts them by probability descending, runs one
Bernoulli trial per candidate in order and builds a rift for the
first success (none when every trial fails), drawing the rift's realm
uniformly from the winning timeline's member realms with severity
`min(5, max(1, floor((30-stability)/5)+1))` — except that a winning
timeline with no member realm records yields none. -/
theorem claim_C6_amended_rift_generation (gs : GameState) (rng : List ℚ) :
    generate_time_rift gs rng = spec_generate_time_rift gs rng := by
  simp only [generate_time_rift, spec_generate_time_rift]
  rw [spec_rift_candidates_eq]
  cases hsel : (selectCandidate (sortCandidatesDesc (riftCandidates gs)) rng).1 with
  | none => rfl
  | some selected =>
    have hmem : selected ∈ riftCandidates gs :=
      sortCandidatesDesc_mem (selectCandidate_mem hsel)
    have hst : selected.stability < 30 := (riftCandidates_mem hmem).1
    have hsev : pyIntR ((30 - selected.stability) / 5) =
        ⌊(30 - selected.stability) / 5⌋ := by
      apply pyIntR_eq_floor
      have h30 : (0 : ℝ) < 30 - selected.stability := by linarith
      positivity
    dsimp only
    by_cases hre : selected.realms = []
    · rw [if_pos hre, if_pos hre]
    · rw [if_neg hre, if_neg hre]
      cases hch : (chooseFrom selected.realms
          (selectCandidate (sortCandidatesDesc (riftCandidates gs)) rng).2).1 with
      | none => rfl
      | some realm =>
        dsimp only
        rw [hsev]

/-- Concrete instance for the C6 counterexample: one timeline with
stored stability 0 and no realm records, and a draw stream whose
single Bernoulli trial succeeds. -/
def tl6C : Timeline := ⟨0, 0, [], []⟩

def gs6C : GameState := ⟨[], [tl6C], [], 0, [], []⟩

def rng6C : List ℚ := [1/2]

lemma stability_tl6C : calculate_stability tl6C [] gs6C = 0 := by
  have hd : decisionImpactRaw tl6C gs6C = 0 := rfl
  have hal : calculate_ethical_alignment ([] : List Realm) = 0 := by
    simp [calculate_ethical_alignment]
  have hdisp : calculate_tech_disparity ([] : List Realm) = 0 := by
    simp [calculate_tech_disparity]
  have hrift : riftImpact tl6C gs6C = 0 := rfl
  have hpar : detect_paradoxes tl6C [] gs6C = [] := by decide
  simp only [calculate_stability]
  rw [hd, hal, hdisp, hrift, hpar]
  norm_num [min_def, max_def, tl6C]

lemma riftCandidates_gs6C : riftCandidates gs6C = [⟨tl6C, [], 0, 1⟩] := by
  unfold riftCandidates
  show List.filterMap _ [tl6C] = _
  rw [List.filterMap_cons]
  dsimp only
  have hfil : List.filter (fun r => r.timeline_id == tl6C.timeline_id) gs6C.realms = [] :=
    rfl
  rw [hfil, stability_tl6C]
  rw [if_pos (by norm_num)]
  have hch : (30 - (0 : ℝ)) / 30 = 1 := by norm_num
  rw [hch]
  rfl

lemma randFloat_rng6C : (randFloat rng6C).1 = 1/2 := by
  show fract (1/2) = 1/2
  unfold fract
  have hfl : ⌊(1/2 : ℚ)⌋ = 0 := by
    rw [Int.floor_eq_zero_iff]
    constructor <;> norm_num
  rw [hfl]
  norm_num

lemma select_gs6C :
    (selectCandidate (sortCandidatesDesc (riftCandidates gs6C)) rng6C).1 =
      some ⟨tl6C, [], 0, 1⟩ := by
  rw [riftCandidates_gs6C]
  have hsort : sortCandidatesDesc [(⟨tl6C, [], 0, 1⟩ : RiftCandidate)] =
      [⟨tl6C, [], 0, 1⟩] := rfl
  rw [hsort]
  simp only [selectCandidate]
  rw [if_pos]
  rw [randFloat_rng6C]
  norm_num

/-- Claim C6 counterexample: on this state the sole candidate's
Bernoulli trial succeeds (the selection loop returns a candidate), yet
`generate_time_rift` returns none because the winning timeline has no
member realm records — contradicting the claim's "returns a rift for
the first success (None if every trial fails)". -/
theorem claim_C6_counterexample :
    (generate_time_rift gs6C rng6C).1 = none ∧
    (selectCandidate (sortCandidatesDesc (riftCandidates gs6C)) rng6C).1 ≠ none := by
  constructor
  · simp only [generate_time_rift]
    rw [select_gs6C]
    rfl
  · rw [select_gs6C]
    simp
